import Mathlib

/-!
# Fawry checkout: a shallow embedding of `src/fawry/Source.cpp`

The file holds two embeddings of the program, statement by statement the same.

* The embedding on exact numbers (`Fawry.Product`, `Fawry.checkout`, ...) takes every
  `double` as an exact rational `ℚ` and every `int` as an unbounded integer `Int`.  It
  carries the results that depend on the control flow only (which check throws, in which
  order, in which state) and the invariant that the specification states in exact
  unbounded arithmetic.
* The embedding on machine numbers (`Fawry.Machine.Product`, `Fawry.Machine.checkout`,
  ...) takes every `double` as an IEEE 754 binary64 number (`Fawry.Double`), wraps every
  arithmetic result on `int` to 32 bits, and records every `double` sent to `cout` as the
  six significant digits that `cout` shows.  It carries the results on the amounts
  computed, charged and printed.

Conventions of both embeddings.

* A `Product*` is an address `ProductRef`; the heap of products is a total map
  from addresses to product objects, so that two cart items holding the same
  pointer alias the same object.
* A C++ function that may throw returns its outcome together with the state it
  leaves behind: `Except RuntimeError α × σ`.  The state component of a thrown
  outcome is the state at the moment of the `throw`.
* What the program writes to `cout` is kept as structured data
  (`ShipmentNotice`, `Receipt`) rather than as text.
-/

namespace Fawry

/-! ## Errors -/

/-- The `runtime_error` values thrown by the program, one constructor per `throw` site. -/
inductive RuntimeError where
  /-- Thrown by `checkout` (line 141): the spec's EmptyCart. -/
  | emptyCart
  /-- Thrown by `checkout` (line 149): the spec's ExpiredProduct(name). -/
  | expiredProduct (name : String)
  /-- Thrown by `checkout` (line 151): the spec's OutOfStock(name). -/
  | outOfStock (name : String)
  /-- Thrown by `Customer::deduct` (line 111): the spec's InsufficientFunds. -/
  | insufficientFunds
  /-- Thrown by `Product::reduceQuantity` (line 36): called OutOfStock in the spec's
  section 4.1 and InsufficientStockOnReduce in its section 7. -/
  | insufficientStockOnReduce
  /-- Thrown by `Cart::add` (line 84): the spec's InsufficientStock. -/
  | insufficientStock
  deriving DecidableEq, Repr

/-- The message carried by each `runtime_error`, as returned by `e.what()`. -/
def RuntimeError.what : RuntimeError → String
  | .emptyCart => "Cart is empty."
  | .expiredProduct name => name ++ " is expired."
  | .outOfStock name => name ++ " is out of stock."
  | .insufficientFunds => "Insufficient balance."
  | .insufficientStockOnReduce => "Not enough quantity in stock."
  | .insufficientStock => "Requested quantity exceeds available stock."

/-! ## Products -/

/-- The three classes of the product hierarchy: `Product` itself, `ExpirableProduct`
(with its `expired` field) and `ShippableProduct` (with its `weight` field). -/
inductive Variant where
  | base
  | expirable (expired : Bool)
  | shippable (weight : ℚ)
  deriving DecidableEq, Repr

/-- A product object: the fields of `class Product` and the dynamic class of the object. -/
structure Product where
  name : String
  price : ℚ
  quantity : Int
  variant : Variant
  deriving DecidableEq, Repr

namespace Product

def getName (p : Product) : String := p.name

def getPrice (p : Product) : ℚ := p.price

def getQuantity (p : Product) : Int := p.quantity

/-- Virtual `isExpired`: `false` unless overridden by `ExpirableProduct`. -/
def isExpired (p : Product) : Bool :=
  match p.variant with
  | .expirable expired => expired
  | _ => false

/-- Virtual `requiresShipping`: `false` unless overridden by `ShippableProduct`. -/
def requiresShipping (p : Product) : Bool :=
  match p.variant with
  | .shippable _ => true
  | _ => false

/-- Virtual `getWeight`: `0.0` unless overridden by `ShippableProduct`. -/
def getWeight (p : Product) : ℚ :=
  match p.variant with
  | .shippable weight => weight
  | _ => 0

/-- The method `Product::reduceQuantity(int q)`: throws when `q > quantity`, otherwise
subtracts `q` from `quantity`. -/
def reduceQuantity (p : Product) (q : Int) : Except RuntimeError Unit × Product :=
  if q > p.quantity then
    (.error .insufficientStockOnReduce, p)
  else
    (.ok (), { p with quantity := p.quantity - q })

end Product

/-! ## Cart, customer and the world -/

/-- A `Product*`: the address of a product object. -/
abbrev ProductRef := Nat

/-- The heap of product objects. -/
abbrev Products := ProductRef → Product

/-- The class `CartItem`: a product pointer and a requested quantity. -/
structure CartItem where
  product : ProductRef
  quantity : Int
  deriving DecidableEq, Repr

/-- The class `Cart`: its vector of items. -/
structure Cart where
  items : List CartItem
  deriving DecidableEq, Repr

namespace Cart

def isEmpty (c : Cart) : Bool := c.items.isEmpty

def getItems (c : Cart) : List CartItem := c.items

end Cart

/-- The class `Customer`. -/
structure Customer where
  name : String
  balance : ℚ
  deriving DecidableEq, Repr

namespace Customer

/-- The method `Customer::deduct(double amount)`: throws when `balance < amount`, otherwise
subtracts `amount` from `balance`. -/
def deduct (c : Customer) (amount : ℚ) : Except RuntimeError Unit × Customer :=
  if c.balance < amount then
    (.error .insufficientFunds, c)
  else
    (.ok (), { c with balance := c.balance - amount })

def getBalance (c : Customer) : ℚ := c.balance

end Customer

/-- The objects a run of the program works on: the product heap, the customer and the
cart handed to `checkout`. -/
structure World where
  products : Products
  customer : Customer
  cart : Cart

/-- The method `Cart::add(Product* product, int quantity)`, on the cart of the world:
throws when `quantity` exceeds the stock of the product pointed to, otherwise pushes
a new item at the back of the vector. -/
def Cart.add (product : ProductRef) (quantity : Int) (w : World) :
    Except RuntimeError Unit × World :=
  if quantity > (w.products product).getQuantity then
    (.error .insufficientStock, w)
  else
    (.ok (), { w with cart := { items := w.cart.items ++ [CartItem.mk product quantity] } })

/-! ## Output -/

/-- One shipped item as printed by `ShippingService::ship`: `<quantity>x <name>` and
`<weight>g`. -/
structure ShipmentLine where
  quantity : Int
  name : String
  weight : ℚ
  deriving DecidableEq, Repr

/-- The shipment notice: its lines and, when printed, the `Total package weight` in kg. -/
structure ShipmentNotice where
  lines : List ShipmentLine
  totalWeightKg : Option ℚ
  deriving DecidableEq, Repr

/-- One line of the receipt: `<quantity>x <name> <line total>`. -/
structure ReceiptLine where
  quantity : Int
  name : String
  lineTotal : ℚ
  deriving DecidableEq, Repr

/-- The checkout receipt. -/
structure Receipt where
  lines : List ReceiptLine
  subtotal : ℚ
  shipping : ℚ
  amount : ℚ
  remainingBalance : ℚ
  deriving DecidableEq, Repr

/-- Everything a successful `checkout` prints: the shipment notice, if any, then the
receipt. -/
structure Output where
  shipment : Option ShipmentNotice
  receipt : Receipt
  deriving DecidableEq, Repr

/-! ## Shipping service -/

/-- The loop of `ShippingService::ship` (lines 126-133), started on `items` with the
lines printed so far and the running `totalWeight`. -/
def ShippingService.shipLoop (products : Products) :
    List CartItem → List ShipmentLine → ℚ → List ShipmentLine × ℚ
  | [], lines, totalWeight => (lines, totalWeight)
  | item :: rest, lines, totalWeight =>
    if (products item.product).requiresShipping then
      let weight := (products item.product).getWeight * (item.quantity : ℚ)
      shipLoop products rest
        (lines ++ [ShipmentLine.mk item.quantity (products item.product).getName weight])
        (totalWeight + weight)
    else
      shipLoop products rest lines totalWeight

/-- The function `ShippingService::ship`. -/
def ShippingService.ship (products : Products) (items : List CartItem) : ShipmentNotice :=
  let r := ShippingService.shipLoop products items [] 0
  { lines := r.1, totalWeightKg := if r.2 > 0 then some (r.2 / 1000) else none }

/-! ## Checkout -/

/-- The local variables of `checkout` that the first loop accumulates. -/
structure Totals where
  subtotal : ℚ
  shipping : ℚ
  shippables : List CartItem
  deriving DecidableEq, Repr

/-- The validation loop of `checkout` (lines 147-158), started on `items` with the
accumulators `acc`.  It only reads the products. -/
def validationPass (products : Products) : List CartItem → Totals → Except RuntimeError Totals
  | [], acc => .ok acc
  | item :: rest, acc =>
    let p := products item.product
    if p.isExpired then .error (.expiredProduct p.getName)
    else if item.quantity > p.getQuantity then .error (.outOfStock p.getName)
    else
      let subtotal := acc.subtotal + p.getPrice * (item.quantity : ℚ)
      if p.requiresShipping then
        validationPass products rest
          { subtotal := subtotal, shipping := acc.shipping + 10,
            shippables := acc.shippables ++ [item] }
      else
        validationPass products rest { acc with subtotal := subtotal }

/-- The mutation loop of `checkout` (lines 163-165): `reduceQuantity` on the product of
every item, in cart order, stopping at the first call that throws.  Every call writes the
object it leaves behind back to the heap. -/
def mutationPass : List CartItem → Products → Except RuntimeError Unit × Products
  | [], products => (.ok (), products)
  | item :: rest, products =>
    match (products item.product).reduceQuantity item.quantity with
    | (.error e, p) => (.error e, Function.update products item.product p)
    | (.ok _, p) => mutationPass rest (Function.update products item.product p)

/-- The receipt lines printed by the loop of lines 171-174. -/
def receiptLines (products : Products) (items : List CartItem) : List ReceiptLine :=
  items.map fun item =>
    ReceiptLine.mk item.quantity (products item.product).getName
      ((products item.product).getPrice * (item.quantity : ℚ))

/-- The function `checkout(Customer& customer, Cart& cart)`. -/
def checkout (w : World) : Except RuntimeError Output × World :=
  if w.cart.isEmpty then (.error .emptyCart, w)
  else
    match validationPass w.products w.cart.getItems ⟨0, 0, []⟩ with
    | .error e => (.error e, w)
    | .ok t =>
      let total := t.subtotal + t.shipping
      match w.customer.deduct total with
      | (.error e, customer) => (.error e, { w with customer := customer })
      | (.ok _, customer) =>
        match mutationPass w.cart.getItems w.products with
        | (.error e, products) =>
          (.error e, { w with products := products, customer := customer })
        | (.ok _, products) =>
          let shipment :=
            if t.shippables.isEmpty then none
            else some (ShippingService.ship products t.shippables)
          let receipt : Receipt :=
            { lines := receiptLines products w.cart.getItems
              subtotal := t.subtotal
              shipping := t.shipping
              amount := total
              remainingBalance := customer.getBalance }
          (.ok { shipment := shipment, receipt := receipt },
            { w with products := products, customer := customer })

/-! ## The sample data of `main` -/

def cheeseRef : ProductRef := 0
def biscuitsRef : ProductRef := 1
def tvRef : ProductRef := 2
def scratchCardRef : ProductRef := 3

/-- The four products constructed by `main`; every other address holds a placeholder
object that no cart item of `main` points to. -/
def mainProducts : Products := fun r =>
  if r = 0 then ⟨"Cheese", 100, 5, .expirable false⟩
  else if r = 1 then ⟨"Biscuits", 150, 3, .expirable false⟩
  else if r = 2 then ⟨"TV", 300, 4, .shippable 10000⟩
  else if r = 3 then ⟨"Scratch Card", 50, 10, .base⟩
  else ⟨"", 0, 0, .base⟩

/-- The state of `main` after the customer, the products and the empty cart exist. -/
def mainWorld : World :=
  { products := mainProducts, customer := ⟨"Anton", 800⟩, cart := ⟨[]⟩ }

/-- The state of `main` right before the call of `checkout`: the cart after the four
calls of `add`. -/
def mainCartWorld : World :=
  (Cart.add scratchCardRef 1 (Cart.add tvRef 1 (Cart.add biscuitsRef 1
    (Cart.add cheeseRef 2 mainWorld).2).2).2).2

/-- What `main` prints on `cout`. -/
def mainOutput : Output :=
  { shipment := some ⟨[⟨1, "TV", 10000⟩], some 10⟩
    receipt := ⟨[⟨2, "Cheese", 200⟩, ⟨1, "Biscuits", 150⟩, ⟨1, "TV", 300⟩,
      ⟨1, "Scratch Card", 50⟩], 700, 10, 710, 90⟩ }

/-! ## Vocabulary of the specification

The quantities the specification speaks about, written from its words so that the
program can be compared with them. -/

/-- Subtotal of the specification: the sum over all cart entries of unit price times
requested quantity. -/
def subtotalOf (products : Products) (items : List CartItem) : ℚ :=
  (items.map fun item => (products item.product).price * (item.quantity : ℚ)).sum

/-- The cart entries whose product requires shipping, in cart order. -/
def shippableItems (products : Products) (items : List CartItem) : List CartItem :=
  items.filter fun item => (products item.product).requiresShipping

/-- Shipping fee of the specification: the flat fee of 10 summed over the shippable
entries. -/
def shippingFeeOf (products : Products) (items : List CartItem) : ℚ :=
  ((shippableItems products items).map fun _ => (10 : ℚ)).sum

/-- Number of cart entries whose product requires shipping. -/
def shippableCount (products : Products) (items : List CartItem) : Nat :=
  items.countP fun item => (products item.product).requiresShipping

/-- Purchased quantity of the product at address `r`: the sum of the requested quantities
of the cart entries that reference it. -/
def purchasedQuantity (items : List CartItem) (r : ProductRef) : Int :=
  ((items.filter fun item => decide (item.product = r)).map CartItem.quantity).sum

/-- A cart entry that the validation pass accepts: its product is not expired and its
requested quantity does not exceed the quantity on hand. -/
def ItemValid (products : Products) (item : CartItem) : Prop :=
  (products item.product).isExpired = false ∧ item.quantity ≤ (products item.product).quantity

instance (products : Products) (item : CartItem) : Decidable (ItemValid products item) := by
  unfold ItemValid; infer_instance

/-- Two products that agree on everything but weight and stock. -/
def SameUpToWeightAndStock (p p2 : Product) : Prop :=
  p.name = p2.name ∧ p.price = p2.price ∧ p.isExpired = p2.isExpired ∧
    p.requiresShipping = p2.requiresShipping

/-- Two carts, each with its product heap, that differ only in the requested quantities
of their entries and in the weights (and stock) of the products: entry by entry, in cart
order, the products agree on name, price, expiry and on whether they require shipping. -/
def DifferOnlyInQuantityAndWeight (products : Products) (items : List CartItem)
    (products2 : Products) (items2 : List CartItem) : Prop :=
  List.Forall₂
    (fun item item2 => SameUpToWeightAndStock (products item.product) (products2 item2.product))
    items items2

/-! ## Sample states used to exercise the theorems -/

/-- The state of `main` before `checkout`, with a customer who has only 700. -/
def shortBalanceWorld : World := { mainCartWorld with customer := ⟨"Anton", 700⟩ }

/-- A cart whose first entry asks for a TV that is no longer in stock and whose second
entry is an expired cheese. -/
def staleCartWorld : World :=
  { products := fun r =>
      if r = 0 then ⟨"TV", 300, 0, .shippable 10000⟩ else ⟨"Cheese", 100, 5, .expirable true⟩
    customer := ⟨"Anton", 800⟩
    cart := ⟨[⟨0, 1⟩, ⟨1, 1⟩]⟩ }

/-- A cart whose first entry is an expired cheese and whose second entry asks for 9 TVs
of which 4 are on hand. -/
def expiredFirstWorld : World :=
  { products := fun r =>
      if r = 0 then ⟨"TV", 300, 4, .shippable 10000⟩ else ⟨"Cheese", 100, 5, .expirable true⟩
    customer := ⟨"Anton", 800⟩
    cart := ⟨[⟨1, 1⟩, ⟨0, 9⟩]⟩ }

/-- A cart with a valid entry, then an expired cheese, then an entry above stock. -/
def expiredSecondWorld : World :=
  { products := fun r =>
      if r = 0 then ⟨"TV", 300, 4, .shippable 10000⟩ else ⟨"Cheese", 100, 5, .expirable true⟩
    customer := ⟨"Anton", 800⟩
    cart := ⟨[⟨0, 1⟩, ⟨1, 1⟩, ⟨0, 9⟩]⟩ }

/-- A cart with a valid entry, then an entry above stock, then an expired cheese. -/
def overStockSecondWorld : World :=
  { products := fun r =>
      if r = 0 then ⟨"TV", 300, 4, .shippable 10000⟩ else ⟨"Cheese", 100, 5, .expirable true⟩
    customer := ⟨"Anton", 800⟩
    cart := ⟨[⟨0, 1⟩, ⟨0, 9⟩, ⟨1, 1⟩]⟩ }

/-- The state reached from the sample data of `main` by calling
`cart.add(&biscuits, 2)` twice: both calls are accepted, since 2 does not exceed the
stock of 3 and `add` reserves nothing. -/
def repeatedBiscuitsWorld : World :=
  (Cart.add biscuitsRef 2 (Cart.add biscuitsRef 2 mainWorld).2).2

/-- The products of `main` with more stock and a heavier TV. -/
def heavyCartProducts : Products := fun r =>
  if r = 0 then ⟨"Cheese", 100, 50, .expirable false⟩
  else if r = 1 then ⟨"Biscuits", 150, 30, .expirable false⟩
  else if r = 2 then ⟨"TV", 300, 40, .shippable 25000⟩
  else if r = 3 then ⟨"Scratch Card", 50, 10, .base⟩
  else ⟨"", 0, 0, .base⟩

/-- The cart of `main` with other requested quantities. -/
def heavyCartItems : List CartItem := [⟨0, 1⟩, ⟨1, 7⟩, ⟨2, 30⟩, ⟨3, 4⟩]

/-! ## Further vocabulary of the specification and sample states -/

/-- Non-negativity of the state: every product's quantity on hand and the customer's
balance are at least 0. -/
def NonNegative (w : World) : Prop :=
  (∀ r : ProductRef, 0 ≤ (w.products r).quantity) ∧ 0 ≤ w.customer.balance

/-- A caller's sequence of calls `cart.add(product, quantity)`, run in the given order from
the state `w`; every call acts on the state the call before it left behind. -/
def addCalls : List (ProductRef × Int) → World → World
  | [], w => w
  | call :: rest, w => addCalls rest (Cart.add call.1 call.2 w).2

/-- The four calls of `add` made by `main`. -/
def mainCalls : List (ProductRef × Int) :=
  [(cheeseRef, 2), (biscuitsRef, 1), (tvRef, 1), (scratchCardRef, 1)]

/-- An offending cart entry: its product is expired, or its requested quantity exceeds
the product's quantity on hand. -/
def Offending (products : Products) (item : CartItem) : Prop :=
  (products item.product).isExpired = true ∨ item.quantity > (products item.product).quantity

instance (products : Products) (item : CartItem) : Decidable (Offending products item) := by
  unfold Offending; infer_instance

/-- The error the specification attributes to an offending entry: ExpiredProduct(name)
when its product is expired, OutOfStock(name) otherwise. -/
def offenceOf (products : Products) (item : CartItem) : RuntimeError :=
  if (products item.product).isExpired then .expiredProduct (products item.product).name
  else .outOfStock (products item.product).name

/-- A cart whose second entry is expired as well as above stock, after a valid entry and
before another entry above stock. -/
def expiredAndOverStockWorld : World :=
  { products := fun r =>
      if r = 0 then ⟨"TV", 300, 4, .shippable 10000⟩ else ⟨"Cheese", 100, 5, .expirable true⟩
    customer := ⟨"Anton", 800⟩
    cart := ⟨[⟨0, 1⟩, ⟨1, 9⟩, ⟨0, 9⟩]⟩ }

/-- The shipment line the specification gives a shippable entry: its requested quantity,
its product's name and the line weight, unit weight times requested quantity. -/
def shipmentLineOf (products : Products) (item : CartItem) : ShipmentLine :=
  { quantity := item.quantity
    name := (products item.product).name
    weight := (products item.product).getWeight * (item.quantity : ℚ) }

/-- The shipment notice of the specification for a list of entries: one line per
shippable entry, in order, and the aggregate weight in kg when the sum of the line weights
is positive. -/
def shipmentNoticeOf (products : Products) (items : List CartItem) : ShipmentNotice :=
  let lines := (shippableItems products items).map (shipmentLineOf products)
  let grams := (lines.map ShipmentLine.weight).sum
  { lines := lines, totalWeightKg := if 0 < grams then some (grams / 1000) else none }

/-- The receipt line the specification gives a cart entry: its requested quantity, its
product's name and the line total, unit price times requested quantity. -/
def receiptLineOf (products : Products) (item : CartItem) : ReceiptLine :=
  { quantity := item.quantity
    name := (products item.product).name
    lineTotal := (products item.product).price * (item.quantity : ℚ) }

/-! ## Machine numbers: IEEE 754 binary64 and the 32-bit `int`

The model of the C++ `double` follows IEEE 754 binary64 in the default rounding mode
(round to nearest, ties to even), with every operation rounded on its own: `+`, `-`, `*`,
`/`, `<` and the conversion from `int`.  Signed zeros, subnormal numbers, overflow to
infinity and NaN are modelled; the sign and payload of a NaN are not distinguished. -/

/-- A C++ `double`: NaN, an infinity, or the finite number `(-1)^neg * m * 2^e`.  The
operations below return finite numbers in canonical form: `m < 2^53`, with `2^52 ≤ m`
and `-1074 ≤ e ≤ 971` for normal numbers, `e = -1074` for subnormal ones and `m = 0`,
`e = 0` for the two zeros. -/
inductive Double where
  | nan
  | inf (neg : Bool)
  | fin (neg : Bool) (m : Nat) (e : Int)
  deriving DecidableEq, Repr

namespace Double

/-- The number of binary digits of `n`, computed with `fuel` halvings at most. -/
def bitLengthAux : Nat → Nat → Nat
  | 0, _ => 0
  | fuel + 1, n => if n = 0 then 0 else bitLengthAux fuel (n / 2) + 1

/-- The number of binary digits of `n`: the least `b` with `n < 2 ^ b`. -/
def bitLength (n : Nat) : Nat := bitLengthAux n n

/-- The quotient `a / b` rounded to the nearest integer, ties to even. -/
def roundDiv (a b : Nat) : Nat :=
  if 2 * (a % b) < b then a / b
  else if 2 * (a % b) = b ∧ (a / b) % 2 = 0 then a / b
  else a / b + 1

/-- The real number `(-1)^neg * n * 2^k` rounded to the nearest double, ties to even:
the result keeps 53 binary digits, fewer in the subnormal range, and is an infinity when
the rounded number exceeds the largest finite double. -/
def round (neg : Bool) (n : Nat) (k : Int) : Double :=
  let e : Int := max (k + (bitLength n : Int) - 53) (-1074)
  let m : Nat := if e ≤ k then n * 2 ^ (k - e).toNat else roundDiv n (2 ^ (e - k).toNat)
  if m = 0 then .fin neg 0 0
  else if m = 2 ^ 53 then (if 971 < e + 1 then .inf neg else .fin neg (2 ^ 52) (e + 1))
  else if 971 < e then .inf neg
  else .fin neg m e

/-- The integer `(-1)^neg * n`. -/
def signed (neg : Bool) (n : Nat) : Int := if neg then -(n : Int) else (n : Int)

/-- Unary minus. -/
def neg : Double → Double
  | .nan => .nan
  | .inf a => .inf (!a)
  | .fin a m e => .fin (!a) m e

/-- The sum `x + y`. -/
def add : Double → Double → Double
  | .nan, _ => .nan
  | _, .nan => .nan
  | .inf a, .inf b => if a = b then .inf a else .nan
  | .inf a, .fin _ _ _ => .inf a
  | .fin _ _ _, .inf b => .inf b
  | .fin a m e, .fin b n f =>
    let k := min e f
    let s := signed a (m * 2 ^ (e - k).toNat) + signed b (n * 2 ^ (f - k).toNat)
    if s = 0 then .fin (a && b) 0 0
    else round (decide (s < 0)) s.natAbs k

/-- The difference `x - y`. -/
def sub (x y : Double) : Double := add x (neg y)

/-- The product `x * y`. -/
def mul : Double → Double → Double
  | .nan, _ => .nan
  | _, .nan => .nan
  | .inf a, .inf b => .inf (a != b)
  | .inf a, .fin b n _ => if n = 0 then .nan else .inf (a != b)
  | .fin a m _, .inf b => if m = 0 then .nan else .inf (a != b)
  | .fin a m e, .fin b n f => round (a != b) (m * n) (e + f)

/-- The quotient `x / y`.  For finite non-zero operands the quotient of the mantissas is
taken with more than 64 binary digits and a last digit that records whether the division
left a remainder, which is enough for `round` to round the exact quotient. -/
def div : Double → Double → Double
  | .nan, _ => .nan
  | _, .nan => .nan
  | .inf _, .inf _ => .nan
  | .inf a, .fin b _ _ => .inf (a != b)
  | .fin a _ _, .inf b => .fin (a != b) 0 0
  | .fin a m e, .fin b n f =>
    if n = 0 then (if m = 0 then .nan else .inf (a != b))
    else
      let t := bitLength n + 64
      let q := (m * 2 ^ t) / n
      let r := (m * 2 ^ t) % n
      round (a != b) (2 * q + (if r = 0 then 0 else 1)) (e - f - (t : Int) - 1)

/-- The comparison `x < y`: false when an operand is NaN. -/
def lt : Double → Double → Bool
  | .nan, _ => false
  | _, .nan => false
  | .inf a, .inf b => a && !b
  | .inf a, .fin _ _ _ => a
  | .fin _ _ _, .inf b => !b
  | .fin a m e, .fin b n f =>
    let k := min e f
    decide (signed a (m * 2 ^ (e - k).toNat) < signed b (n * 2 ^ (f - k).toNat))

/-- The comparison `x <= y`: false when an operand is NaN. -/
def le : Double → Double → Bool
  | .nan, _ => false
  | _, .nan => false
  | x, y => !lt y x

/-- The conversion of an `int` to `double`. -/
def ofInt (i : Int) : Double := round (decide (i < 0)) i.natAbs 0

/-- The exact value of a finite double; nothing for NaN and the infinities. -/
def toRat? : Double → Option ℚ
  | .fin a m e => some ((signed a m : ℚ) * (2 : ℚ) ^ e)
  | _ => none

/-- A double in canonical form, as the hardware holds it. -/
def Valid : Double → Prop
  | .nan => True
  | .inf _ => True
  | .fin _ m e =>
    (m = 0 ∧ e = 0) ∨ (0 < m ∧ m < 2 ^ 53 ∧ -1074 ≤ e ∧ e ≤ 971 ∧ (m < 2 ^ 52 → e = -1074))

/-- A double that is not negative: `+inf`, a finite number with sign bit clear, or a zero
of either sign.  These are the doubles `d` with `0 <= d`. -/
def NonNeg : Double → Prop
  | .nan => False
  | .inf a => a = false
  | .fin a m _ => a = false ∨ m = 0

/-- A finite double. -/
def IsFinite : Double → Prop
  | .fin _ _ _ => True
  | _ => False

instance (d : Double) : Decidable d.Valid := by
  cases d <;> unfold Valid <;> infer_instance

instance (d : Double) : Decidable d.IsFinite := by
  cases d <;> unfold IsFinite <;> infer_instance

instance (d : Double) : Decidable d.NonNeg := by
  cases d <;> unfold NonNeg <;> infer_instance

end Double

/-- What `cout << x` shows for a `double` in the default format (`%g` with precision 6):
a NaN (shown as `nan` or `-nan`; its sign is not modelled), an infinity, or a number with
the six significant decimal digits `digits` and the decimal exponent `exp`, of value
`(-1)^neg * digits * 10^(exp - 5)`; a zero has `digits = 0` and `exp = 0`.  The text printed (fixed or scientific notation, trailing
zeros removed) is a function of these. -/
inductive Printed where
  | nan
  | inf (neg : Bool)
  | num (neg : Bool) (digits : Nat) (exp : Int)
  deriving DecidableEq, Repr

namespace Double

/-- Whether `10 ^ d ≤ num / den`. -/
def tenPowLe (num den : Nat) (d : Int) : Bool :=
  if 0 ≤ d then decide (10 ^ d.toNat * den ≤ num) else decide (den ≤ num * 10 ^ (-d).toNat)

/-- The decimal exponent of the positive rational `num / den`: the largest `d` with
`10 ^ d ≤ num / den`, looked for around the estimate that the binary digits give. -/
def decimalExponent (num den : Nat) : Int :=
  let d0 : Int := ((bitLength num : Int) - (bitLength den : Int)) * 30103 / 100000
  if tenPowLe num den (d0 + 2) then d0 + 2
  else if tenPowLe num den (d0 + 1) then d0 + 1
  else if tenPowLe num den d0 then d0
  else if tenPowLe num den (d0 - 1) then d0 - 1
  else d0 - 2

/-- The number `cout << x` shows: the exact value of `x` rounded to six significant
decimal digits, ties to even. -/
def print : Double → Printed
  | .nan => .nan
  | .inf a => .inf a
  | .fin a m e =>
    if m = 0 then .num a 0 0
    else
      let num := if 0 ≤ e then m * 2 ^ e.toNat else m
      let den := if 0 ≤ e then 1 else 2 ^ (-e).toNat
      let d := decimalExponent num den
      let n := if 5 ≤ d then roundDiv num (den * 10 ^ (d - 5).toNat)
               else roundDiv (num * 10 ^ (5 - d).toNat) den
      if n = 1000000 then .num a 100000 (d + 1) else .num a n d

end Double

/-- The exact value of a printed number; nothing for `nan` and the infinities. -/
def Printed.toRat? : Printed → Option ℚ
  | .num a digits exp => some ((Double.signed a digits : ℚ) * (10 : ℚ) ^ (exp - 5))
  | _ => none

/-- The range of the 32-bit `int`. -/
def isInt32 (x : Int) : Prop := -2147483648 ≤ x ∧ x ≤ 2147483647

instance (x : Int) : Decidable (isInt32 x) := by
  unfold isInt32; infer_instance

/-- The 32-bit `int` that an arithmetic result is stored as: the result reduced modulo
`2^32` into the range of `int` (two's complement wrap-around, which is what the usual
targets do on the overflow that C++ leaves undefined). -/
def wrapInt32 (x : Int) : Int := (x + 2147483648) % 4294967296 - 2147483648

/-! ## The program on machine numbers

A second embedding of `src/fawry/Source.cpp`, statement by statement like the first, in
which every `double` is a `Double`, every arithmetic result on `int` is wrapped to 32
bits, and every `double` sent to `cout` is recorded as the number `cout` shows.  The
embedding on exact numbers above is its idealisation: the two agree on the control flow,
and on the values as long as no operation rounds, overflows or prints more than six
significant digits. -/

namespace Machine

/-- The three classes of the product hierarchy, the weight being a `double`. -/
inductive Variant where
  | base
  | expirable (expired : Bool)
  | shippable (weight : Double)
  deriving DecidableEq, Repr

/-- A product object: `string name; double price; int quantity;` and its dynamic class. -/
structure Product where
  name : String
  price : Double
  quantity : Int
  variant : Variant
  deriving DecidableEq, Repr

namespace Product

def getName (p : Product) : String := p.name

def getPrice (p : Product) : Double := p.price

def getQuantity (p : Product) : Int := p.quantity

/-- Virtual `isExpired`: `false` unless overridden by `ExpirableProduct`. -/
def isExpired (p : Product) : Bool :=
  match p.variant with
  | .expirable expired => expired
  | _ => false

/-- Virtual `requiresShipping`: `false` unless overridden by `ShippableProduct`. -/
def requiresShipping (p : Product) : Bool :=
  match p.variant with
  | .shippable _ => true
  | _ => false

/-- Virtual `getWeight`: `0.0` unless overridden by `ShippableProduct`. -/
def getWeight (p : Product) : Double :=
  match p.variant with
  | .shippable weight => weight
  | _ => Double.ofInt 0

/-- The method `Product::reduceQuantity(int q)`: throws when `q > quantity`, otherwise
executes `quantity -= q` on 32-bit integers. -/
def reduceQuantity (p : Product) (q : Int) : Except RuntimeError Unit × Product :=
  if q > p.quantity then
    (.error .insufficientStockOnReduce, p)
  else
    (.ok (), { p with quantity := wrapInt32 (p.quantity - q) })

end Product

/-- The heap of product objects. -/
abbrev Products := ProductRef → Product

/-- The class `Customer`: `string name; double balance;`. -/
structure Customer where
  name : String
  balance : Double
  deriving DecidableEq, Repr

namespace Customer

/-- The method `Customer::deduct(double amount)`: throws when `balance < amount`, otherwise
executes `balance -= amount` on doubles. -/
def deduct (c : Customer) (amount : Double) : Except RuntimeError Unit × Customer :=
  if Double.lt c.balance amount then
    (.error .insufficientFunds, c)
  else
    (.ok (), { c with balance := Double.sub c.balance amount })

def getBalance (c : Customer) : Double := c.balance

end Customer

/-- The objects a run of the program works on. -/
structure World where
  products : Products
  customer : Customer
  cart : Cart

/-- The method `Cart::add(Product* product, int quantity)`, on the cart of the world. -/
def Cart.add (product : ProductRef) (quantity : Int) (w : World) :
    Except RuntimeError Unit × World :=
  if quantity > (w.products product).getQuantity then
    (.error .insufficientStock, w)
  else
    (.ok (), { w with cart := { items := w.cart.items ++ [CartItem.mk product quantity] } })

/-- One shipped item as printed by `ShippingService::ship`: `<quantity>x <name>` and
`<weight>g`, the weight as `cout` shows it. -/
structure ShipmentLine where
  quantity : Int
  name : String
  weight : Printed
  deriving DecidableEq, Repr

/-- The shipment notice: its lines and, when printed, the `Total package weight` in kg. -/
structure ShipmentNotice where
  lines : List ShipmentLine
  totalWeightKg : Option Printed
  deriving DecidableEq, Repr

/-- One line of the receipt: `<quantity>x <name> <line total>`. -/
structure ReceiptLine where
  quantity : Int
  name : String
  lineTotal : Printed
  deriving DecidableEq, Repr

/-- The checkout receipt, every amount as `cout` shows it. -/
structure Receipt where
  lines : List ReceiptLine
  subtotal : Printed
  shipping : Printed
  amount : Printed
  remainingBalance : Printed
  deriving DecidableEq, Repr

/-- Everything a successful `checkout` prints. -/
structure Output where
  shipment : Option ShipmentNotice
  receipt : Receipt
  deriving DecidableEq, Repr

/-- The loop of `ShippingService::ship` (lines 126-133): `weight` is the double product
`getWeight() * quantity`, printed, and added to the running double `totalWeight`. -/
def ShippingService.shipLoop (products : Products) :
    List CartItem → List ShipmentLine → Double → List ShipmentLine × Double
  | [], lines, totalWeight => (lines, totalWeight)
  | item :: rest, lines, totalWeight =>
    if (products item.product).requiresShipping then
      let weight := Double.mul (products item.product).getWeight (Double.ofInt item.quantity)
      shipLoop products rest
        (lines ++ [ShipmentLine.mk item.quantity (products item.product).getName weight.print])
        (Double.add totalWeight weight)
    else
      shipLoop products rest lines totalWeight

/-- The function `ShippingService::ship`: after the loop, `totalWeight / 1000` is printed
when `totalWeight > 0`. -/
def ShippingService.ship (products : Products) (items : List CartItem) : ShipmentNotice :=
  let r := ShippingService.shipLoop products items [] (Double.ofInt 0)
  { lines := r.1
    totalWeightKg :=
      if Double.lt (Double.ofInt 0) r.2 then some (Double.div r.2 (Double.ofInt 1000)).print
      else none }

/-- The local variables of `checkout` that the first loop accumulates. -/
structure Totals where
  subtotal : Double
  shipping : Double
  shippables : List CartItem
  deriving DecidableEq, Repr

/-- The validation loop of `checkout` (lines 147-158): `subtotal += price * quantity` and
`shipping += 10.0` are double operations. -/
def validationPass (products : Products) : List CartItem → Totals → Except RuntimeError Totals
  | [], acc => .ok acc
  | item :: rest, acc =>
    let p := products item.product
    if p.isExpired then .error (.expiredProduct p.getName)
    else if item.quantity > p.getQuantity then .error (.outOfStock p.getName)
    else
      let subtotal := Double.add acc.subtotal (Double.mul p.getPrice (Double.ofInt item.quantity))
      if p.requiresShipping then
        validationPass products rest
          { subtotal := subtotal, shipping := Double.add acc.shipping (Double.ofInt 10),
            shippables := acc.shippables ++ [item] }
      else
        validationPass products rest { acc with subtotal := subtotal }

/-- The mutation loop of `checkout` (lines 163-165). -/
def mutationPass : List CartItem → Products → Except RuntimeError Unit × Products
  | [], products => (.ok (), products)
  | item :: rest, products =>
    match (products item.product).reduceQuantity item.quantity with
    | (.error e, p) => (.error e, Function.update products item.product p)
    | (.ok _, p) => mutationPass rest (Function.update products item.product p)

/-- The receipt lines printed by the loop of lines 171-174. -/
def receiptLines (products : Products) (items : List CartItem) : List ReceiptLine :=
  items.map fun item =>
    ReceiptLine.mk item.quantity (products item.product).getName
      (Double.mul (products item.product).getPrice (Double.ofInt item.quantity)).print

/-- The function `checkout(Customer& customer, Cart& cart)`. -/
def checkout (w : World) : Except RuntimeError Output × World :=
  if w.cart.isEmpty then (.error .emptyCart, w)
  else
    match validationPass w.products w.cart.getItems ⟨Double.ofInt 0, Double.ofInt 0, []⟩ with
    | .error e => (.error e, w)
    | .ok t =>
      let total := Double.add t.subtotal t.shipping
      match w.customer.deduct total with
      | (.error e, customer) => (.error e, { w with customer := customer })
      | (.ok _, customer) =>
        match mutationPass w.cart.getItems w.products with
        | (.error e, products) =>
          (.error e, { w with products := products, customer := customer })
        | (.ok _, products) =>
          let shipment :=
            if t.shippables.isEmpty then none
            else some (ShippingService.ship products t.shippables)
          let receipt : Receipt :=
            { lines := receiptLines products w.cart.getItems
              subtotal := t.subtotal.print
              shipping := t.shipping.print
              amount := total.print
              remainingBalance := customer.getBalance.print }
          (.ok { shipment := shipment, receipt := receipt },
            { w with products := products, customer := customer })

/-! ### Vocabulary of the specification on machine numbers -/

/-- The line total of an entry as the program computes it: the double product of the unit
price and the requested quantity. -/
def lineTotal (products : Products) (item : CartItem) : Double :=
  Double.mul (products item.product).price (Double.ofInt item.quantity)

/-- The subtotal as the program computes it: the line totals added one after the other,
in cart order, to `0.0`, every addition rounded. -/
def subtotalOf (products : Products) (items : List CartItem) : Double :=
  items.foldl (fun acc item => Double.add acc (lineTotal products item)) (Double.ofInt 0)

/-- The cart entries whose product requires shipping, in cart order. -/
def shippableItems (products : Products) (items : List CartItem) : List CartItem :=
  items.filter fun item => (products item.product).requiresShipping

/-- The shipping fee as the program computes it: `10.0` added to `0.0` once per shippable
entry. -/
def shippingFeeOf (products : Products) (items : List CartItem) : Double :=
  (shippableItems products items).foldl (fun acc _ => Double.add acc (Double.ofInt 10))
    (Double.ofInt 0)

/-- The line weight of an entry as the program computes it: the double product of the unit
weight and the requested quantity. -/
def lineWeight (products : Products) (item : CartItem) : Double :=
  Double.mul (products item.product).getWeight (Double.ofInt item.quantity)

/-- The total shipped weight as the program computes it: the line weights of the shippable
entries added one after the other, in cart order, to `0.0`, every addition rounded. -/
def totalWeightOf (products : Products) (items : List CartItem) : Double :=
  (shippableItems products items).foldl (fun acc item => Double.add acc (lineWeight products item))
    (Double.ofInt 0)

/-- A cart entry that the validation pass accepts. -/
def ItemValid (products : Products) (item : CartItem) : Prop :=
  (products item.product).isExpired = false ∧ item.quantity ≤ (products item.product).quantity

instance (products : Products) (item : CartItem) : Decidable (ItemValid products item) := by
  unfold ItemValid; infer_instance

end Machine

deriving instance DecidableEq for Except

namespace Machine

/-! ### Sample states on machine numbers -/

/-- The four products constructed by `main`. -/
def mainProducts : Products := fun r =>
  if r = 0 then ⟨"Cheese", Double.ofInt 100, 5, .expirable false⟩
  else if r = 1 then ⟨"Biscuits", Double.ofInt 150, 3, .expirable false⟩
  else if r = 2 then ⟨"TV", Double.ofInt 300, 4, .shippable (Double.ofInt 10000)⟩
  else if r = 3 then ⟨"Scratch Card", Double.ofInt 50, 10, .base⟩
  else ⟨"", Double.ofInt 0, 0, .base⟩

/-- The state of `main` right before the call of `checkout`. -/
def mainCartWorld : World :=
  { products := mainProducts
    customer := ⟨"Anton", Double.ofInt 800⟩
    cart := ⟨[⟨0, 2⟩, ⟨1, 1⟩, ⟨2, 1⟩, ⟨3, 1⟩]⟩ }

/-- What `main` prints on `cout`: every number with its six significant digits. -/
def mainOutput : Output :=
  { shipment := some ⟨[⟨1, "TV", .num false 100000 4⟩], some (.num false 100000 1)⟩
    receipt :=
      { lines := [⟨2, "Cheese", .num false 200000 2⟩, ⟨1, "Biscuits", .num false 150000 2⟩,
          ⟨1, "TV", .num false 300000 2⟩, ⟨1, "Scratch Card", .num false 500000 1⟩]
        subtotal := .num false 700000 2
        shipping := .num false 100000 1
        amount := .num false 710000 2
        remainingBalance := .num false 900000 1 } }

/-- The state of `main` before `checkout`, with a customer who has only 700. -/
def shortBalanceWorld : World := { mainCartWorld with customer := ⟨"Anton", Double.ofInt 700⟩ }

/-- A customer with balance 1e16 who buys one pen at price 1. -/
def roundingWorld : World :=
  { products := fun _ => ⟨"Pen", Double.ofInt 1, 1, .base⟩
    customer := ⟨"Anton", Double.ofInt 10000000000000000⟩
    cart := ⟨[⟨0, 1⟩]⟩ }

/-- A cart with the entry -1 on a free product whose stock is the largest `int`. -/
def overflowWorld : World :=
  { products := fun _ => ⟨"Leaflet", Double.ofInt 0, 2147483647, .base⟩
    customer := ⟨"Anton", Double.ofInt 800⟩
    cart := ⟨[⟨0, -1⟩]⟩ }

/-- A customer with balance 0.5 who buys five sweets at price 0.1, the doubles nearest
to 1/2 and 1/10. -/
def tenthsWorld : World :=
  { products := fun _ => ⟨"Sweet", Double.div (Double.ofInt 1) (Double.ofInt 10), 5, .base⟩
    customer := ⟨"Anton", Double.div (Double.ofInt 1) (Double.ofInt 2)⟩
    cart := ⟨[⟨0, 5⟩]⟩ }

/-- A cart of three free shippable products with unit weights 1e16, 1 and 1e16 and
requested quantities 1, 1 and -1. -/
def cancellingWeightsWorld : World :=
  { products := fun r =>
      if r = 0 then ⟨"Anvil", Double.ofInt 0, 5, .shippable (Double.ofInt 10000000000000000)⟩
      else if r = 1 then ⟨"Feather", Double.ofInt 0, 5, .shippable (Double.ofInt 1)⟩
      else ⟨"Balloon", Double.ofInt 0, 5, .shippable (Double.ofInt 10000000000000000)⟩
    customer := ⟨"Anton", Double.ofInt 800⟩
    cart := ⟨[⟨0, 1⟩, ⟨1, 1⟩, ⟨2, -1⟩]⟩ }

/-- A customer whose balance is NaN and who buys one pen at price 1. -/
def nanBalanceWorld : World :=
  { products := fun _ => ⟨"Pen", Double.ofInt 1, 1, .base⟩
    customer := ⟨"Anton", .nan⟩
    cart := ⟨[⟨0, 1⟩]⟩ }

end Machine

/-! ## Lemmas on the two loops and on the structure of `checkout` -/

/-- The validation loop runs through a block of accepted entries, adding their line
totals, their shipping fees and their shippable entries to the accumulators. -/
theorem validationPass_append (products : Products) (pre rest : List CartItem) (acc : Totals)
    (h : ∀ item ∈ pre, ItemValid products item) :
    validationPass products (pre ++ rest) acc =
      validationPass products rest
        ⟨acc.subtotal + subtotalOf products pre, acc.shipping + shippingFeeOf products pre,
          acc.shippables ++ shippableItems products pre⟩ := by
  induction pre generalizing acc with
  | nil => simp [subtotalOf, shippingFeeOf, shippableItems]
  | cons item pre ih =>
    obtain ⟨he, hq⟩ := h item (List.mem_cons_self _ _)
    have hr : ∀ i ∈ pre, ItemValid products i := fun i hi => h i (List.mem_cons_of_mem _ hi)
    have hq' : ¬ item.quantity > (products item.product).getQuantity := not_lt.mpr hq
    rw [List.cons_append, validationPass]
    simp only [he, hq', if_false, Bool.false_eq_true]
    cases hs : (products item.product).requiresShipping with
    | true =>
      simp only [if_true, ih _ hr]
      simp [subtotalOf, shippingFeeOf, shippableItems, hs, Product.getPrice, List.filter_cons,
        add_assoc]
    | false =>
      simp only [Bool.false_eq_true, if_false, ih _ hr]
      simp [subtotalOf, shippingFeeOf, shippableItems, hs, Product.getPrice, List.filter_cons,
        add_assoc]

/-- On a cart of accepted entries the validation loop returns the accumulated totals. -/
theorem validationPass_of_valid (products : Products) (items : List CartItem) (acc : Totals)
    (h : ∀ item ∈ items, ItemValid products item) :
    validationPass products items acc =
      .ok ⟨acc.subtotal + subtotalOf products items, acc.shipping + shippingFeeOf products items,
        acc.shippables ++ shippableItems products items⟩ := by
  have := validationPass_append products items [] acc h
  rw [List.append_nil] at this
  rw [this, validationPass]

/-- Started as `checkout` starts it, the validation loop of a cart of accepted entries
returns the subtotal, the shipping fee and the shippable entries of the specification. -/
theorem validationPass_start (products : Products) (items : List CartItem)
    (h : ∀ item ∈ items, ItemValid products item) :
    validationPass products items ⟨0, 0, []⟩ =
      .ok ⟨subtotalOf products items, shippingFeeOf products items,
        shippableItems products items⟩ := by
  rw [validationPass_of_valid products items _ h]
  simp

/-- Every entry of a cart on which the validation loop returns normally is accepted. -/
theorem valid_of_validationPass_ok (products : Products) (items : List CartItem) (acc t : Totals)
    (h : validationPass products items acc = .ok t) : ∀ item ∈ items, ItemValid products item := by
  induction items generalizing acc with
  | nil => simp
  | cons item rest ih =>
    unfold validationPass at h
    cases he : (products item.product).isExpired with
    | true => simp [he] at h
    | false =>
      by_cases hq : item.quantity > (products item.product).getQuantity
      · simp [he, hq] at h
      · simp only [he, hq, if_false, Bool.false_eq_true] at h
        have hv : ItemValid products item := ⟨he, not_lt.mp hq⟩
        intro i hi
        rcases List.mem_cons.mp hi with rfl | hi
        · exact hv
        · split at h
          · exact ih _ h i hi
          · exact ih _ h i hi

/-- The validation loop throws ExpiredProduct at an expired entry that follows accepted
entries only. -/
theorem validationPass_first_expired (products : Products) (pre post : List CartItem)
    (e : CartItem) (acc : Totals) (hpre : ∀ item ∈ pre, ItemValid products item)
    (he : (products e.product).isExpired = true) :
    validationPass products (pre ++ e :: post) acc =
      .error (.expiredProduct (products e.product).getName) := by
  rw [validationPass_append products pre _ acc hpre, validationPass]
  simp [he]

/-- The validation loop throws OutOfStock at an unexpired entry above stock that follows
accepted entries only. -/
theorem validationPass_first_overstock (products : Products) (pre post : List CartItem)
    (e : CartItem) (acc : Totals) (hpre : ∀ item ∈ pre, ItemValid products item)
    (he : (products e.product).isExpired = false)
    (hq : e.quantity > (products e.product).quantity) :
    validationPass products (pre ++ e :: post) acc =
      .error (.outOfStock (products e.product).getName) := by
  rw [validationPass_append products pre _ acc hpre, validationPass]
  simp [he, Product.getQuantity, hq]

/-- A block of unexpired entries, one of them above stock, makes the validation loop
throw OutOfStock. -/
theorem validationPass_overstock_before (products : Products) (pre rest : List CartItem)
    (acc : Totals) (hpre : ∀ item ∈ pre, (products item.product).isExpired = false)
    (hq : ∃ item ∈ pre, item.quantity > (products item.product).quantity) :
    ∃ name, validationPass products (pre ++ rest) acc = .error (.outOfStock name) := by
  induction pre generalizing acc with
  | nil => simp at hq
  | cons item pre ih =>
    have he := hpre item (List.mem_cons_self _ _)
    rw [List.cons_append, validationPass]
    by_cases hi : item.quantity > (products item.product).getQuantity
    · exact ⟨(products item.product).getName, by simp [he, hi]⟩
    · have hq' : ∃ i ∈ pre, i.quantity > (products i.product).quantity := by
        obtain ⟨i, hmem, hgt⟩ := hq
        rcases List.mem_cons.mp hmem with rfl | hmem
        · exact absurd hgt hi
        · exact ⟨i, hmem, hgt⟩
      have hpre' : ∀ i ∈ pre, (products i.product).isExpired = false :=
        fun i hmem => hpre i (List.mem_cons_of_mem _ hmem)
      simp only [he, hi, if_false, Bool.false_eq_true]
      split
      · exact ih _ hpre' hq'
      · exact ih _ hpre' hq'

/-- A block of entries within stock, one of them expired, makes the validation loop
throw ExpiredProduct. -/
theorem validationPass_expired_before (products : Products) (pre rest : List CartItem)
    (acc : Totals) (hpre : ∀ item ∈ pre, item.quantity ≤ (products item.product).quantity)
    (hx : ∃ item ∈ pre, (products item.product).isExpired = true) :
    ∃ name, validationPass products (pre ++ rest) acc = .error (.expiredProduct name) := by
  induction pre generalizing acc with
  | nil => simp at hx
  | cons item pre ih =>
    have hle := hpre item (List.mem_cons_self _ _)
    have hi : ¬ item.quantity > (products item.product).getQuantity := not_lt.mpr hle
    rw [List.cons_append, validationPass]
    cases he : (products item.product).isExpired with
    | true => exact ⟨(products item.product).getName, by simp⟩
    | false =>
      have hx' : ∃ i ∈ pre, (products i.product).isExpired = true := by
        obtain ⟨i, hmem, hex⟩ := hx
        rcases List.mem_cons.mp hmem with rfl | hmem
        · rw [he] at hex; exact absurd hex (by simp)
        · exact ⟨i, hmem, hex⟩
      have hpre' : ∀ i ∈ pre, i.quantity ≤ (products i.product).quantity :=
        fun i hmem => hpre i (List.mem_cons_of_mem _ hmem)
      simp only [hi, if_false, Bool.false_eq_true]
      split
      · exact ih _ hpre' hx'
      · exact ih _ hpre' hx'

/-- A mutation loop that returns normally has changed nothing but the quantities, and has
lowered the quantity of every product by the purchased quantity. -/
theorem mutationPass_ok (items : List CartItem) (ps ps' : Products)
    (h : mutationPass items ps = (.ok (), ps')) (r : ProductRef) :
    ps' r = { ps r with quantity := (ps r).quantity - purchasedQuantity items r } := by
  induction items generalizing ps with
  | nil =>
    simp only [mutationPass, Prod.mk.injEq, true_and] at h
    subst h
    simp [purchasedQuantity]
  | cons item rest ih =>
    unfold mutationPass Product.reduceQuantity at h
    by_cases hq : item.quantity > (ps item.product).quantity
    · simp [hq] at h
    · simp only [hq, if_false] at h
      rw [ih _ h]
      by_cases hr : item.product = r
      · subst hr
        simp [purchasedQuantity, List.filter_cons, sub_sub]
      · simp [purchasedQuantity, List.filter_cons, hr, Function.update_noteq (Ne.symm hr)]

/-- A cart with entries is not empty. -/
theorem cart_isEmpty_eq_false (c : Cart) (h : c.items ≠ []) : c.isEmpty = false := by
  cases hc : c.items with
  | nil => exact absurd hc h
  | cons a l => simp [Cart.isEmpty, hc]

/-- An error of the validation loop is the outcome of `checkout`, in the state it started in. -/
theorem checkout_of_validation_error (w : World) (e : RuntimeError) (hne : w.cart.items ≠ [])
    (h : validationPass w.products w.cart.items ⟨0, 0, []⟩ = .error e) :
    checkout w = (.error e, w) := by
  simp [checkout, cart_isEmpty_eq_false w.cart hne, Cart.getItems, h]

/-- When the total exceeds the balance, `checkout` throws InsufficientFunds in the state it
started in. -/
theorem checkout_of_insufficient (w : World) (t : Totals) (hne : w.cart.items ≠ [])
    (h : validationPass w.products w.cart.items ⟨0, 0, []⟩ = .ok t)
    (hb : w.customer.balance < t.subtotal + t.shipping) :
    checkout w = (.error .insufficientFunds, w) := by
  simp [checkout, cart_isEmpty_eq_false w.cart hne, Cart.getItems, h, Customer.deduct, hb]

/-- Once the customer has been charged, `checkout` is determined by the mutation loop. -/
theorem checkout_of_charged (w : World) (t : Totals) (hne : w.cart.items ≠ [])
    (h : validationPass w.products w.cart.items ⟨0, 0, []⟩ = .ok t)
    (hb : ¬ w.customer.balance < t.subtotal + t.shipping) :
    checkout w =
      match mutationPass w.cart.items w.products with
      | (.error e, products) =>
        (.error e, { w with products := products,
                            customer := { w.customer with
                              balance := w.customer.balance - (t.subtotal + t.shipping) } })
      | (.ok _, products) =>
        (.ok { shipment :=
                if t.shippables.isEmpty then none
                else some (ShippingService.ship products t.shippables)
               receipt :=
                { lines := receiptLines products w.cart.items
                  subtotal := t.subtotal
                  shipping := t.shipping
                  amount := t.subtotal + t.shipping
                  remainingBalance := w.customer.balance - (t.subtotal + t.shipping) } },
          { w with products := products,
                   customer := { w.customer with
                     balance := w.customer.balance - (t.subtotal + t.shipping) } }) := by
  simp only [checkout, cart_isEmpty_eq_false w.cart hne, Cart.getItems, h, Customer.deduct, hb,
    if_false, Bool.false_eq_true, Customer.getBalance]

/-- Inversion of a successful checkout: the validation loop returned totals, the customer
could pay them, and the mutation loop returned normally. -/
theorem checkout_ok_inv (w : World) (out : Output) (h : (checkout w).1 = .ok out) :
    ∃ t products,
      w.cart.items ≠ [] ∧
      validationPass w.products w.cart.items ⟨0, 0, []⟩ = .ok t ∧
      ¬ w.customer.balance < t.subtotal + t.shipping ∧
      mutationPass w.cart.items w.products = (.ok (), products) ∧
      (checkout w).2 = { w with products := products,
                                customer := { w.customer with
                                  balance := w.customer.balance - (t.subtotal + t.shipping) } } ∧
      out = { shipment :=
                if t.shippables.isEmpty then none
                else some (ShippingService.ship products t.shippables)
              receipt :=
                { lines := receiptLines products w.cart.items
                  subtotal := t.subtotal
                  shipping := t.shipping
                  amount := t.subtotal + t.shipping
                  remainingBalance := w.customer.balance - (t.subtotal + t.shipping) } } := by
  by_cases hne : w.cart.items = []
  · simp [checkout, Cart.isEmpty, hne] at h
  · cases hv : validationPass w.products w.cart.items ⟨0, 0, []⟩ with
    | error e => rw [checkout_of_validation_error w e hne hv] at h; simp at h
    | ok t =>
      by_cases hb : w.customer.balance < t.subtotal + t.shipping
      · rw [checkout_of_insufficient w t hne hv hb] at h; simp at h
      · rw [checkout_of_charged w t hne hv hb] at h ⊢
        rcases hm : mutationPass w.cart.items w.products with ⟨r, products⟩
        cases r with
        | error e => rw [hm] at h; simp at h
        | ok u =>
          rw [hm] at h
          simp only [Except.ok.injEq] at h
          exact ⟨t, products, hne, rfl, hb, rfl, rfl, h.symm⟩

/-- A checkout stopped by the validation loop reports its error and changes neither the
balance nor any quantity. -/
theorem checkout_validation_error_unchanged (w : World) (e : RuntimeError)
    (hne : w.cart.items ≠ [])
    (h : validationPass w.products w.cart.items ⟨0, 0, []⟩ = .error e) :
    (checkout w).1 = .error e ∧ (checkout w).2.customer.balance = w.customer.balance ∧
    ∀ r : ProductRef, ((checkout w).2.products r).quantity = (w.products r).quantity := by
  rw [checkout_of_validation_error w e hne h]
  exact ⟨rfl, rfl, fun _ => rfl⟩

/-- The state of `main` before `checkout`, spelled out. -/
theorem mainCartWorld_eq :
    mainCartWorld =
      { products := mainProducts, customer := ⟨"Anton", 800⟩,
        cart := ⟨[⟨0, 2⟩, ⟨1, 1⟩, ⟨2, 1⟩, ⟨3, 1⟩]⟩ } := by
  simp [mainCartWorld, mainWorld, Cart.add, mainProducts, Product.getQuantity, cheeseRef,
    biscuitsRef, tvRef, scratchCardRef]

/-- The checkout of `main` succeeds and prints `mainOutput`. -/
theorem checkout_mainCartWorld_outcome : (checkout mainCartWorld).1 = .ok mainOutput := by
  rw [mainCartWorld_eq]
  simp [checkout, Cart.isEmpty, Cart.getItems, validationPass, mainProducts, Product.isExpired,
    Product.getQuantity, Product.getPrice, Product.requiresShipping, Customer.deduct,
    mutationPass, Product.reduceQuantity, ShippingService.ship, ShippingService.shipLoop,
    receiptLines, Product.getName, Product.getWeight, Customer.getBalance, mainOutput,
    Function.update_apply]
  norm_num

/-- The shipping fee of the specification is 10 times the number of shippable entries. -/
theorem shippingFeeOf_eq (products : Products) (items : List CartItem) :
    shippingFeeOf products items = 10 * (shippableCount products items : ℚ) := by
  simp [shippingFeeOf, shippableItems, shippableCount, List.countP_eq_length_filter, mul_comm]

/-- Carts that differ only in quantities and weights have the same number of shippable
entries. -/
theorem shippableCount_congr (products products2 : Products) (items items2 : List CartItem)
    (h : DifferOnlyInQuantityAndWeight products items products2 items2) :
    shippableCount products items = shippableCount products2 items2 := by
  unfold DifferOnlyInQuantityAndWeight at h
  induction h with
  | nil => rfl
  | cons hab _ ih =>
    unfold shippableCount at ih ⊢
    simp only [List.countP_cons, ih, hab.2.2.2]

/-- The totals returned by the validation loop, started as `checkout` starts it. -/
theorem validationPass_ok_eq (products : Products) (items : List CartItem) (t : Totals)
    (h : validationPass products items ⟨0, 0, []⟩ = .ok t) :
    t = ⟨subtotalOf products items, shippingFeeOf products items,
      shippableItems products items⟩ := by
  have hvalid := valid_of_validationPass_ok _ _ _ _ h
  rw [validationPass_start _ _ hvalid] at h
  injection h with h
  exact h.symm

/-- The validation loop accepts the cart of `main`. -/
theorem validationPass_main :
    validationPass mainProducts [⟨0, 2⟩, ⟨1, 1⟩, ⟨2, 1⟩, ⟨3, 1⟩] ⟨0, 0, []⟩ =
      .ok ⟨700, 10, [⟨2, 1⟩]⟩ := by
  simp [validationPass, mainProducts, Product.isExpired, Product.getQuantity, Product.getPrice,
    Product.requiresShipping]
  norm_num

/-- The state of `main` after two calls of `cart.add(&biscuits, 2)`, spelled out. -/
theorem repeatedBiscuitsWorld_eq :
    repeatedBiscuitsWorld =
      { products := mainProducts, customer := ⟨"Anton", 800⟩, cart := ⟨[⟨1, 2⟩, ⟨1, 2⟩]⟩ } := by
  simp [repeatedBiscuitsWorld, mainWorld, Cart.add, mainProducts, Product.getQuantity,
    biscuitsRef]

/-! ## Checkout: settlement and failures -/

/-- Counterexample to C3 as stated: the second entry of the cart is expired, but the
first entry asks for more than is on hand, and checkout fails with OutOfStock, not with
ExpiredProduct. -/
theorem checkout_expired_entry_counterexample :
    staleCartWorld.cart.items ≠ [] ∧
    (∃ item ∈ staleCartWorld.cart.items,
      (staleCartWorld.products item.product).isExpired = true) ∧
    (checkout staleCartWorld).1 = .error (.outOfStock "TV") ∧
    ∀ name : String, (checkout staleCartWorld).1 ≠ .error (.expiredProduct name) := by
  have h : (checkout staleCartWorld).1 = .error (.outOfStock "TV") := by
    simp [checkout, staleCartWorld, Cart.isEmpty, Cart.getItems, validationPass,
      Product.isExpired, Product.getQuantity, Product.getName]
  refine ⟨by simp [staleCartWorld], ⟨⟨1, 1⟩, by simp [staleCartWorld], ?_⟩, h, ?_⟩
  · simp [staleCartWorld, Product.isExpired]
  · intro name
    rw [h]
    simp

/-- C3, amended: for a cart with an expired entry, split at its first expired entry
(`pre` holds the entries before it, none of them expired; `post` the entries after it,
whatever they are), checkout fails and leaves the customer's balance and every product's
quantity unchanged; it fails with ExpiredProduct, naming the product of the first expired
entry, when no entry before that one asks for more than is on hand, and with OutOfStock
when one does. -/
theorem checkout_first_expired (w : World) (pre post : List CartItem) (e : CartItem)
    (hitems : w.cart.items = pre ++ e :: post)
    (hpre : ∀ item ∈ pre, (w.products item.product).isExpired = false)
    (he : (w.products e.product).isExpired = true) :
    ((∀ item ∈ pre, item.quantity ≤ (w.products item.product).quantity) →
      (checkout w).1 = .error (.expiredProduct (w.products e.product).getName)) ∧
    ((∃ item ∈ pre, item.quantity > (w.products item.product).quantity) →
      ∃ name, (checkout w).1 = .error (.outOfStock name)) ∧
    (checkout w).2.customer.balance = w.customer.balance ∧
    ∀ r : ProductRef, ((checkout w).2.products r).quantity = (w.products r).quantity := by
  have hne : w.cart.items ≠ [] := by simp [hitems]
  have key : ∃ err, validationPass w.products w.cart.items ⟨0, 0, []⟩ = .error err ∧
      ((∀ item ∈ pre, item.quantity ≤ (w.products item.product).quantity) →
        err = .expiredProduct (w.products e.product).getName) ∧
      ((∃ item ∈ pre, item.quantity > (w.products item.product).quantity) →
        ∃ name, err = .outOfStock name) := by
    by_cases hq : ∃ item ∈ pre, item.quantity > (w.products item.product).quantity
    · obtain ⟨name, hv⟩ := validationPass_overstock_before w.products pre (e :: post)
        ⟨0, 0, []⟩ hpre hq
      rw [← hitems] at hv
      refine ⟨_, hv, fun hall => ?_, fun _ => ⟨name, rfl⟩⟩
      obtain ⟨i, hmem, hgt⟩ := hq
      exact absurd (hall i hmem) (not_le.mpr hgt)
    · have hall : ∀ item ∈ pre, ItemValid w.products item := fun i hmem =>
        ⟨hpre i hmem, not_lt.mp fun hgt => hq ⟨i, hmem, hgt⟩⟩
      have hv := validationPass_first_expired w.products pre post e ⟨0, 0, []⟩ hall he
      rw [← hitems] at hv
      exact ⟨_, hv, fun _ => rfl, fun h => absurd h hq⟩
  obtain ⟨err, hv, h1, h2⟩ := key
  obtain ⟨ho, hb, hs⟩ := checkout_validation_error_unchanged w err hne hv
  refine ⟨fun hall => ?_, fun hq => ?_, hb, hs⟩
  · rw [ho, h1 hall]
  · obtain ⟨name, hn⟩ := h2 hq
    exact ⟨name, by rw [ho, hn]⟩

/-- Witness of the amended C3: an expired cheese in second position, after a valid entry
and before an entry above stock, is reported as ExpiredProduct("Cheese"); after an entry
above stock the failure is OutOfStock; the state is unchanged. -/
theorem checkout_first_expired_witness :
    (checkout expiredSecondWorld).1 = .error (.expiredProduct "Cheese") ∧
    (∃ name, (checkout staleCartWorld).1 = .error (.outOfStock name)) ∧
    (checkout expiredSecondWorld).2.customer.balance = expiredSecondWorld.customer.balance ∧
    ∀ r : ProductRef,
      ((checkout expiredSecondWorld).2.products r).quantity =
        (expiredSecondWorld.products r).quantity :=
  have h := checkout_first_expired expiredSecondWorld [⟨0, 1⟩] [⟨0, 9⟩] ⟨1, 1⟩
    (by simp [expiredSecondWorld])
    (by simp [expiredSecondWorld, Product.isExpired])
    (by simp [expiredSecondWorld, Product.isExpired])
  have h2 := checkout_first_expired staleCartWorld [⟨0, 1⟩] [] ⟨1, 1⟩
    (by simp [staleCartWorld])
    (by simp [staleCartWorld, Product.isExpired])
    (by simp [staleCartWorld, Product.isExpired])
  ⟨h.1 (by simp [expiredSecondWorld]), h2.2.1 (by simp [staleCartWorld]), h.2.2⟩

/-- Counterexample to C4 as stated: the second entry of the cart asks for more than is on
hand, but the first entry is expired, and checkout fails with ExpiredProduct, not with
OutOfStock. -/
theorem checkout_overstock_entry_counterexample :
    expiredFirstWorld.cart.items ≠ [] ∧
    (∃ item ∈ expiredFirstWorld.cart.items,
      item.quantity > (expiredFirstWorld.products item.product).quantity) ∧
    (checkout expiredFirstWorld).1 = .error (.expiredProduct "Cheese") ∧
    ∀ name : String, (checkout expiredFirstWorld).1 ≠ .error (.outOfStock name) := by
  have h : (checkout expiredFirstWorld).1 = .error (.expiredProduct "Cheese") := by
    simp [checkout, expiredFirstWorld, Cart.isEmpty, Cart.getItems, validationPass,
      Product.isExpired, Product.getName]
  refine ⟨by simp [expiredFirstWorld], ⟨⟨0, 9⟩, by simp [expiredFirstWorld], ?_⟩, h, ?_⟩
  · simp [expiredFirstWorld]
  · intro name
    rw [h]
    simp

/-- C4, amended: for a cart with an entry whose requested quantity exceeds the quantity on
hand of its product, split at its first such entry (`pre` holds the entries before it, all
within stock; `post` the entries after it, whatever they are), checkout fails and leaves
the customer's balance and every product's quantity unchanged; it fails with OutOfStock,
naming the product of that entry, when neither that entry nor an entry before it is
expired, and with ExpiredProduct when one of them is. -/
theorem checkout_first_overstock (w : World) (pre post : List CartItem) (e : CartItem)
    (hitems : w.cart.items = pre ++ e :: post)
    (hpre : ∀ item ∈ pre, item.quantity ≤ (w.products item.product).quantity)
    (hq : e.quantity > (w.products e.product).quantity) :
    ((∀ item ∈ pre ++ [e], (w.products item.product).isExpired = false) →
      (checkout w).1 = .error (.outOfStock (w.products e.product).getName)) ∧
    ((∃ item ∈ pre ++ [e], (w.products item.product).isExpired = true) →
      ∃ name, (checkout w).1 = .error (.expiredProduct name)) ∧
    (checkout w).2.customer.balance = w.customer.balance ∧
    ∀ r : ProductRef, ((checkout w).2.products r).quantity = (w.products r).quantity := by
  have hne : w.cart.items ≠ [] := by simp [hitems]
  have key : ∃ err, validationPass w.products w.cart.items ⟨0, 0, []⟩ = .error err ∧
      ((∀ item ∈ pre ++ [e], (w.products item.product).isExpired = false) →
        err = .outOfStock (w.products e.product).getName) ∧
      ((∃ item ∈ pre ++ [e], (w.products item.product).isExpired = true) →
        ∃ name, err = .expiredProduct name) := by
    by_cases hx : ∃ item ∈ pre ++ [e], (w.products item.product).isExpired = true
    · by_cases hxp : ∃ item ∈ pre, (w.products item.product).isExpired = true
      · obtain ⟨name, hv⟩ := validationPass_expired_before w.products pre (e :: post)
          ⟨0, 0, []⟩ hpre hxp
        rw [← hitems] at hv
        refine ⟨_, hv, fun hall => ?_, fun _ => ⟨name, rfl⟩⟩
        obtain ⟨i, hmem, hex⟩ := hx
        rw [hall i hmem] at hex
        exact absurd hex (by simp)
      · have hee : (w.products e.product).isExpired = true := by
          obtain ⟨i, hmem, hex⟩ := hx
          rcases List.mem_append.mp hmem with hmem | hmem
          · exact absurd ⟨i, hmem, hex⟩ hxp
          · rw [List.mem_singleton] at hmem
            rw [← hmem]; exact hex
        have hall : ∀ item ∈ pre, ItemValid w.products item := fun i hmem =>
          ⟨by
            cases hi : (w.products i.product).isExpired with
            | false => rfl
            | true => exact absurd ⟨i, hmem, hi⟩ hxp, hpre i hmem⟩
        have hv := validationPass_first_expired w.products pre post e ⟨0, 0, []⟩ hall hee
        rw [← hitems] at hv
        refine ⟨_, hv, fun hnone => ?_, fun _ => ⟨_, rfl⟩⟩
        rw [hnone e (by simp)] at hee
        exact absurd hee (by simp)
    · have hnone : ∀ item ∈ pre ++ [e], (w.products item.product).isExpired = false := by
        intro i hmem
        cases hi : (w.products i.product).isExpired with
        | false => rfl
        | true => exact absurd ⟨i, hmem, hi⟩ hx
      have hall : ∀ item ∈ pre, ItemValid w.products item := fun i hmem =>
        ⟨hnone i (List.mem_append_left _ hmem), hpre i hmem⟩
      have hv := validationPass_first_overstock w.products pre post e ⟨0, 0, []⟩ hall
        (hnone e (by simp)) hq
      rw [← hitems] at hv
      exact ⟨_, hv, fun _ => rfl, fun h => absurd h hx⟩
  obtain ⟨err, hv, h1, h2⟩ := key
  obtain ⟨ho, hb, hs⟩ := checkout_validation_error_unchanged w err hne hv
  refine ⟨fun hall => ?_, fun hx => ?_, hb, hs⟩
  · rw [ho, h1 hall]
  · obtain ⟨name, hn⟩ := h2 hx
    exact ⟨name, by rw [ho, hn]⟩

/-- Witness of the amended C4: a request for 9 TVs with 4 on hand, in second position
after a valid entry and before an expired cheese, is reported as OutOfStock("TV"); after
an expired entry the failure is ExpiredProduct; the state is unchanged. -/
theorem checkout_first_overstock_witness :
    (checkout overStockSecondWorld).1 = .error (.outOfStock "TV") ∧
    (∃ name, (checkout expiredFirstWorld).1 = .error (.expiredProduct name)) ∧
    (checkout overStockSecondWorld).2.customer.balance =
      overStockSecondWorld.customer.balance ∧
    ∀ r : ProductRef,
      ((checkout overStockSecondWorld).2.products r).quantity =
        (overStockSecondWorld.products r).quantity :=
  have h := checkout_first_overstock overStockSecondWorld [⟨0, 1⟩] [⟨1, 1⟩] ⟨0, 9⟩
    (by simp [overStockSecondWorld])
    (by simp [overStockSecondWorld])
    (by simp [overStockSecondWorld])
  have h2 := checkout_first_overstock expiredFirstWorld [⟨1, 1⟩] [] ⟨0, 9⟩
    (by simp [expiredFirstWorld])
    (by simp [expiredFirstWorld])
    (by simp [expiredFirstWorld])
  ⟨h.1 (by simp [overStockSecondWorld, Product.isExpired]),
    h2.2.1 (by simp [expiredFirstWorld, Product.isExpired]), h.2.2⟩

/-- C5: checkout on a cart with no entries fails with EmptyCart, and the customer's
balance and every product's quantity are unchanged. -/
theorem checkout_empty_cart (w : World) (h : w.cart.items = []) :
    (checkout w).1 = .error .emptyCart ∧
    (checkout w).2.customer.balance = w.customer.balance ∧
    ∀ r : ProductRef, ((checkout w).2.products r).quantity = (w.products r).quantity := by
  simp [checkout, Cart.isEmpty, h]

/-- Witness of C5: checkout in the state of `main` before anything is added to the cart. -/
theorem checkout_empty_cart_witness :
    (checkout mainWorld).1 = .error .emptyCart ∧
    (checkout mainWorld).2.customer.balance = mainWorld.customer.balance ∧
    ∀ r : ProductRef,
      ((checkout mainWorld).2.products r).quantity = (mainWorld.products r).quantity :=
  checkout_empty_cart mainWorld rfl

/-! ## Shipping fee -/

/-- C6: for every cart that passes validation, the shipping fee computed by checkout is
10 times the number of cart entries whose product requires shipping; a second validated
cart that differs from it only in the requested quantities and the weights of its entries
gets the same fee; and the fee is 0 when no entry is shippable. -/
theorem shipping_fee_flat_per_shippable_entry (products : Products) (items : List CartItem)
    (t : Totals) (h : validationPass products items ⟨0, 0, []⟩ = .ok t) :
    t.shipping = 10 * (shippableCount products items : ℚ) ∧
    (∀ (products2 : Products) (items2 : List CartItem) (t2 : Totals),
      validationPass products2 items2 ⟨0, 0, []⟩ = .ok t2 →
      DifferOnlyInQuantityAndWeight products items products2 items2 →
      t2.shipping = t.shipping) ∧
    ((∀ item ∈ items, (products item.product).requiresShipping = false) →
      t.shipping = 0) := by
  have ht : t.shipping = 10 * (shippableCount products items : ℚ) := by
    rw [validationPass_ok_eq products items t h]
    exact shippingFeeOf_eq products items
  refine ⟨ht, fun products2 items2 t2 h2 hd => ?_, fun hnone => ?_⟩
  · rw [ht, validationPass_ok_eq products2 items2 t2 h2]
    simp only
    rw [shippingFeeOf_eq, shippableCount_congr products products2 items items2 hd]
  · rw [ht]
    have : shippableCount products items = 0 := by
      unfold shippableCount
      rw [List.countP_eq_zero]
      intro item hmem
      simp [hnone item hmem]
    simp [this]

/-- Witness of C6: the cart of `main` has one shippable entry among four and a fee of 10,
and so has the cart with other quantities and a heavier TV. -/
theorem shipping_fee_flat_per_shippable_entry_witness :
    validationPass mainProducts [⟨0, 2⟩, ⟨1, 1⟩, ⟨2, 1⟩, ⟨3, 1⟩] ⟨0, 0, []⟩ =
      .ok ⟨700, 10, [⟨2, 1⟩]⟩ ∧
    shippableCount mainProducts [⟨0, 2⟩, ⟨1, 1⟩, ⟨2, 1⟩, ⟨3, 1⟩] = 1 ∧
    (∀ t2 : Totals, validationPass heavyCartProducts heavyCartItems ⟨0, 0, []⟩ = .ok t2 →
      t2.shipping = 10) ∧
    validationPass heavyCartProducts heavyCartItems ⟨0, 0, []⟩ =
      .ok ⟨10350, 10, [⟨2, 30⟩]⟩ :=
  have h := shipping_fee_flat_per_shippable_entry mainProducts
    [⟨0, 2⟩, ⟨1, 1⟩, ⟨2, 1⟩, ⟨3, 1⟩] ⟨700, 10, [⟨2, 1⟩]⟩ validationPass_main
  ⟨validationPass_main,
    by simp [shippableCount, mainProducts, Product.requiresShipping, List.countP_cons],
    fun t2 h2 => h.2.1 heavyCartProducts heavyCartItems t2 h2
      (by simp [DifferOnlyInQuantityAndWeight, SameUpToWeightAndStock, heavyCartProducts,
        heavyCartItems, mainProducts, Product.isExpired, Product.requiresShipping]),
    by
      simp [validationPass, heavyCartProducts, heavyCartItems, Product.isExpired,
        Product.getQuantity, Product.getPrice, Product.requiresShipping]
      norm_num⟩

/-! ## The mutation pass after validation -/

/-- C7, evaluated at the failing input (the claim does not hold there): in the state
reached from the sample data of `main` by two accepted calls `cart.add(&biscuits, 2)`,
the validation pass succeeds and the deduction of the total 600 succeeds, yet the second
`reduceQuantity` call of the mutation pass throws; checkout fails with the error of
`Product::reduceQuantity` after the customer has been charged (balance 200 instead of
800) and the stock of biscuits has been lowered from 3 to 1. -/
theorem checkout_repeated_product_fails_after_charge :
    (Cart.add biscuitsRef 2 mainWorld).1 = .ok () ∧
    (Cart.add biscuitsRef 2 (Cart.add biscuitsRef 2 mainWorld).2).1 = .ok () ∧
    validationPass repeatedBiscuitsWorld.products repeatedBiscuitsWorld.cart.items ⟨0, 0, []⟩ =
      .ok ⟨600, 0, []⟩ ∧
    (repeatedBiscuitsWorld.customer.deduct (600 + 0)).1 = .ok () ∧
    (checkout repeatedBiscuitsWorld).1 = .error .insufficientStockOnReduce ∧
    (checkout repeatedBiscuitsWorld).2.customer.balance = 200 ∧
    ((checkout repeatedBiscuitsWorld).2.products biscuitsRef).quantity = 1 := by
  refine ⟨?_, ?_, ?_, ?_, ?_, ?_, ?_⟩
  · simp [Cart.add, mainWorld, mainProducts, Product.getQuantity, biscuitsRef]
  · simp [Cart.add, mainWorld, mainProducts, Product.getQuantity, biscuitsRef]
  · rw [repeatedBiscuitsWorld_eq]
    simp [validationPass, mainProducts, Product.isExpired, Product.getQuantity,
      Product.getPrice, Product.requiresShipping]
    norm_num
  · rw [repeatedBiscuitsWorld_eq]
    simp [Customer.deduct]
    norm_num
  · rw [repeatedBiscuitsWorld_eq]
    simp [checkout, Cart.isEmpty, Cart.getItems, validationPass, mainProducts,
      Product.isExpired, Product.getQuantity, Product.getPrice, Product.requiresShipping,
      Customer.deduct, mutationPass, Product.reduceQuantity, Function.update_apply]
    norm_num
  · rw [repeatedBiscuitsWorld_eq]
    simp [checkout, Cart.isEmpty, Cart.getItems, validationPass, mainProducts,
      Product.isExpired, Product.getQuantity, Product.getPrice, Product.requiresShipping,
      Customer.deduct, mutationPass, Product.reduceQuantity, Function.update_apply]
    norm_num
  · rw [repeatedBiscuitsWorld_eq]
    simp [checkout, Cart.isEmpty, Cart.getItems, validationPass, mainProducts,
      Product.isExpired, Product.getQuantity, Product.getPrice, Product.requiresShipping,
      Customer.deduct, mutationPass, Product.reduceQuantity, Function.update_apply,
      biscuitsRef]
    norm_num

/-! ## The method `Cart::add` -/

/-- C8: `Cart.add(product, quantity)` fails with InsufficientStock exactly when the
quantity exceeds the product's quantity on hand, and then the cart is unchanged;
otherwise it returns normally and the new entry list is the old one with the entry
(product, quantity) appended at the end; in both cases every product's quantity on hand
is unchanged. -/
theorem cart_add_spec (w : World) (product : ProductRef) (quantity : Int) :
    ((Cart.add product quantity w).1 = .error .insufficientStock ↔
      quantity > (w.products product).quantity) ∧
    (quantity > (w.products product).quantity → (Cart.add product quantity w).2.cart = w.cart) ∧
    (¬ quantity > (w.products product).quantity →
      (Cart.add product quantity w).1 = .ok () ∧
      (Cart.add product quantity w).2.cart.items = w.cart.items ++ [⟨product, quantity⟩]) ∧
    ∀ r : ProductRef,
      ((Cart.add product quantity w).2.products r).quantity = (w.products r).quantity := by
  unfold Cart.add Product.getQuantity
  by_cases h : quantity > (w.products product).quantity
  · simp [h]
  · simp [h]

/-- Witness of C8 on the sample data of `main`: 5 TVs with 4 on hand are refused and
the cart stays as it was; 1 TV is accepted and appended; the stock of TVs stays 4. -/
theorem cart_add_spec_witness :
    (Cart.add tvRef 5 mainWorld).1 = .error .insufficientStock ∧
    (Cart.add tvRef 5 mainWorld).2.cart = mainWorld.cart ∧
    (Cart.add tvRef 1 mainWorld).1 = .ok () ∧
    (Cart.add tvRef 1 mainWorld).2.cart.items = mainWorld.cart.items ++ [⟨tvRef, 1⟩] ∧
    ((Cart.add tvRef 1 mainWorld).2.products tvRef).quantity = 4 :=
  have hgt : (5 : Int) > (mainWorld.products tvRef).quantity := by
    simp [mainWorld, mainProducts, tvRef]
  have hle : ¬ (1 : Int) > (mainWorld.products tvRef).quantity := by
    simp [mainWorld, mainProducts, tvRef]
  ⟨(cart_add_spec mainWorld tvRef 5).1.mpr hgt,
    (cart_add_spec mainWorld tvRef 5).2.1 hgt,
    ((cart_add_spec mainWorld tvRef 1).2.2.1 hle).1,
    ((cart_add_spec mainWorld tvRef 1).2.2.1 hle).2,
    ((cart_add_spec mainWorld tvRef 1).2.2.2 tvRef).trans
      (by simp [mainWorld, mainProducts, tvRef])⟩

/-! ## Lemmas on the state and the output of `checkout` -/

/-- Whatever its outcome, the mutation loop changes no product's name, price or class,
and leaves alone every product that no item points to. -/
theorem mutationPass_frame (items : List CartItem) (ps : Products) (a : ProductRef) :
    ((mutationPass items ps).2 a).name = (ps a).name ∧
    ((mutationPass items ps).2 a).price = (ps a).price ∧
    ((mutationPass items ps).2 a).variant = (ps a).variant ∧
    ((∀ item ∈ items, item.product ≠ a) → (mutationPass items ps).2 a = ps a) := by
  induction items generalizing ps with
  | nil => simp [mutationPass]
  | cons item rest ih =>
    rw [mutationPass]
    unfold Product.reduceQuantity
    by_cases hq : item.quantity > (ps item.product).quantity
    · simp only [hq, if_true]
      by_cases ha : item.product = a
      · subst ha
        simp
      · simp [Function.update_noteq (Ne.symm ha)]
    · simp only [hq, if_false]
      obtain ⟨h1, h2, h3, h4⟩ := ih (Function.update ps item.product
        { ps item.product with quantity := (ps item.product).quantity - item.quantity })
      rw [h1, h2, h3]
      by_cases ha : item.product = a
      · subst ha
        simp
      · refine ⟨?_, ?_, ?_, fun hall => ?_⟩
        · simp [Function.update_noteq (Ne.symm ha)]
        · simp [Function.update_noteq (Ne.symm ha)]
        · simp [Function.update_noteq (Ne.symm ha)]
        · rw [h4 fun i hi => hall i (List.mem_cons_of_mem _ hi)]
          simp [Function.update_noteq (Ne.symm ha)]

/-- Whatever its outcome, the mutation loop keeps every quantity on hand non-negative. -/
theorem mutationPass_nonneg (items : List CartItem) (ps : Products)
    (h : ∀ a : ProductRef, 0 ≤ (ps a).quantity) (a : ProductRef) :
    0 ≤ ((mutationPass items ps).2 a).quantity := by
  induction items generalizing ps with
  | nil => simpa [mutationPass] using h a
  | cons item rest ih =>
    rw [mutationPass]
    unfold Product.reduceQuantity
    by_cases hq : item.quantity > (ps item.product).quantity
    · simp only [hq, if_true]
      by_cases ha : item.product = a
      · subst ha
        simpa using h item.product
      · simpa [Function.update_noteq (Ne.symm ha)] using h a
    · simp only [hq, if_false]
      apply ih
      intro b
      by_cases hb : item.product = b
      · subst hb
        simp only [Function.update_same]
        exact sub_nonneg.mpr (not_lt.mp hq)
      · simpa [Function.update_noteq (Ne.symm hb)] using h b

/-- The state `checkout` leaves behind, in every outcome: the cart and the customer's name
are as before; the products are as before or as the mutation loop left them; the balance
is as before or lowered by a total the customer could pay. -/
theorem checkout_state (w : World) :
    (checkout w).2.cart = w.cart ∧
    (checkout w).2.customer.name = w.customer.name ∧
    ((checkout w).2.products = w.products ∨
      (checkout w).2.products = (mutationPass w.cart.items w.products).2) ∧
    ((checkout w).2.customer.balance = w.customer.balance ∨
      ∃ total : ℚ, ¬ w.customer.balance < total ∧
        (checkout w).2.customer.balance = w.customer.balance - total) := by
  by_cases hne : w.cart.items = []
  · simp [checkout, Cart.isEmpty, hne]
  · cases hv : validationPass w.products w.cart.items ⟨0, 0, []⟩ with
    | error e => simp [checkout_of_validation_error w e hne hv]
    | ok t =>
      by_cases hb : w.customer.balance < t.subtotal + t.shipping
      · simp [checkout_of_insufficient w t hne hv hb]
      · rw [checkout_of_charged w t hne hv hb]
        rcases hm : mutationPass w.cart.items w.products with ⟨r, products⟩
        cases r with
        | error e => exact ⟨rfl, rfl, Or.inr rfl, Or.inr ⟨_, hb, rfl⟩⟩
        | ok u => exact ⟨rfl, rfl, Or.inr rfl, Or.inr ⟨_, hb, rfl⟩⟩

/-- A call of `add` with a positive quantity keeps all requested quantities positive. -/
theorem cart_add_positive (w : World) (product : ProductRef) (quantity : Int)
    (hcart : ∀ item ∈ w.cart.items, 1 ≤ item.quantity) (hq : 1 ≤ quantity) :
    ∀ item ∈ (Cart.add product quantity w).2.cart.items, 1 ≤ item.quantity := by
  unfold Cart.add
  split
  · exact hcart
  · intro item hmem
    rcases List.mem_append.mp hmem with hmem | hmem
    · exact hcart item hmem
    · rw [List.mem_singleton] at hmem
      rw [hmem]
      exact hq

/-- Calls of `add` with positive quantities keep all requested quantities positive. -/
theorem addCalls_positive (calls : List (ProductRef × Int)) (w : World)
    (hcart : ∀ item ∈ w.cart.items, 1 ≤ item.quantity) (hpos : ∀ call ∈ calls, 1 ≤ call.2) :
    ∀ item ∈ (addCalls calls w).cart.items, 1 ≤ item.quantity := by
  induction calls generalizing w with
  | nil => exact hcart
  | cons call rest ih =>
    rw [addCalls]
    exact ih _ (cart_add_positive w call.1 call.2 hcart (hpos call (List.mem_cons_self _ _)))
      (fun c hc => hpos c (List.mem_cons_of_mem _ hc))

/-- The calls of `main` build the cart of `main`. -/
theorem addCalls_mainCalls : addCalls mainCalls mainWorld = mainCartWorld := rfl

/-- An entry that is not offending is accepted by the validation loop. -/
theorem itemValid_of_not_offending (products : Products) (item : CartItem)
    (h : ¬ Offending products item) : ItemValid products item := by
  unfold Offending at h
  unfold ItemValid
  push_neg at h
  exact ⟨by simpa using h.1, h.2⟩

/-- The loop of `ship` appends one line per shippable item and adds up their weights. -/
theorem shipLoop_eq (products : Products) (items : List CartItem) (lines : List ShipmentLine)
    (totalWeight : ℚ) :
    ShippingService.shipLoop products items lines totalWeight =
      (lines ++ (shippableItems products items).map (shipmentLineOf products),
        totalWeight +
          (((shippableItems products items).map (shipmentLineOf products)).map
            ShipmentLine.weight).sum) := by
  induction items generalizing lines totalWeight with
  | nil => simp [ShippingService.shipLoop, shippableItems]
  | cons item rest ih =>
    rw [ShippingService.shipLoop]
    cases hs : (products item.product).requiresShipping with
    | true =>
      simp only [if_true, ih]
      simp [shippableItems, List.filter_cons, hs, shipmentLineOf, Product.getName, add_assoc]
    | false =>
      simp only [Bool.false_eq_true, if_false, ih]
      simp [shippableItems, List.filter_cons, hs]

/-- The function `ship` prints the shipment notice of the specification. -/
theorem ship_eq (products : Products) (items : List CartItem) :
    ShippingService.ship products items = shipmentNoticeOf products items := by
  simp [ShippingService.ship, shipLoop_eq, shipmentNoticeOf]

/-- Filtering the shippable entries twice is filtering them once. -/
theorem shippableItems_idem (products : Products) (items : List CartItem) :
    shippableItems products (shippableItems products items) = shippableItems products items := by
  simp [shippableItems, List.filter_filter]

/-- The shipment notice depends on the products through their names and classes only. -/
theorem shipmentNoticeOf_congr (ps ps2 : Products) (items : List CartItem)
    (hname : ∀ r, (ps2 r).name = (ps r).name) (hvar : ∀ r, (ps2 r).variant = (ps r).variant) :
    shipmentNoticeOf ps2 items = shipmentNoticeOf ps items := by
  have hl : shipmentLineOf ps2 = shipmentLineOf ps := by
    funext item
    simp [shipmentLineOf, hname, Product.getWeight, hvar]
  have hf : shippableItems ps2 items = shippableItems ps items := by
    simp [shippableItems, Product.requiresShipping, hvar]
  simp only [shipmentNoticeOf, hl, hf]

/-- The receipt lines are the receipt lines of the specification, and depend on the
products through their names and prices only. -/
theorem receiptLines_congr (ps ps2 : Products) (items : List CartItem)
    (hname : ∀ r, (ps2 r).name = (ps r).name) (hprice : ∀ r, (ps2 r).price = (ps r).price) :
    receiptLines ps2 items = items.map (receiptLineOf ps) := by
  simp [receiptLines, receiptLineOf, Product.getName, Product.getPrice, hname, hprice]

/-- The notice of the shippable entries is the notice of all entries. -/
theorem shipmentNoticeOf_shippableItems (products : Products) (items : List CartItem) :
    shipmentNoticeOf products (shippableItems products items) =
      shipmentNoticeOf products items := by
  simp only [shipmentNoticeOf, shippableItems_idem]

/-- In every outcome, `checkout` changes no product's name, price or class. -/
theorem checkout_products_frame (w : World) (r : ProductRef) :
    ((checkout w).2.products r).name = (w.products r).name ∧
    ((checkout w).2.products r).price = (w.products r).price ∧
    ((checkout w).2.products r).variant = (w.products r).variant := by
  rcases (checkout_state w).2.2.1 with hp | hp
  · rw [hp]; exact ⟨rfl, rfl, rfl⟩
  · obtain ⟨h1, h2, h3, -⟩ := mutationPass_frame w.cart.items w.products r
    rw [hp]; exact ⟨h1, h2, h3⟩

/-- What a successful checkout prints, in the vocabulary of the specification. -/
theorem checkout_ok_output (w : World) (out : Output) (h : (checkout w).1 = .ok out) :
    out.shipment =
      (if (shippableItems w.products w.cart.items).isEmpty then none
       else some (shipmentNoticeOf w.products w.cart.items)) ∧
    out.receipt =
      { lines := w.cart.items.map (receiptLineOf w.products)
        subtotal := subtotalOf w.products w.cart.items
        shipping := shippingFeeOf w.products w.cart.items
        amount := subtotalOf w.products w.cart.items + shippingFeeOf w.products w.cart.items
        remainingBalance := w.customer.balance -
          (subtotalOf w.products w.cart.items + shippingFeeOf w.products w.cart.items) } := by
  obtain ⟨t, products, hne, hv, hb, hm, hw, hout⟩ := checkout_ok_inv w out h
  have ht := validationPass_ok_eq _ _ _ hv
  subst ht
  have hfr : ∀ r, (products r).name = (w.products r).name ∧
      (products r).price = (w.products r).price ∧
      (products r).variant = (w.products r).variant := by
    intro r
    have := mutationPass_frame w.cart.items w.products r
    rw [hm] at this
    exact ⟨this.1, this.2.1, this.2.2.1⟩
  rw [hout]
  refine ⟨?_, ?_⟩
  · simp only
    rw [ship_eq, shipmentNoticeOf_congr w.products products _ (fun r => (hfr r).1)
      (fun r => (hfr r).2.2), shipmentNoticeOf_shippableItems]
  · simp only
    rw [receiptLines_congr w.products products _ (fun r => (hfr r).1) (fun r => (hfr r).2.1)]

/-- On a cart without repeated products whose entries are all within stock, no
`reduceQuantity` call of the mutation loop throws. -/
theorem mutationPass_ok_of_nodup (items : List CartItem) (ps : Products)
    (hnd : (items.map CartItem.product).Nodup)
    (hq : ∀ item ∈ items, item.quantity ≤ (ps item.product).quantity) :
    (mutationPass items ps).1 = .ok () := by
  induction items generalizing ps with
  | nil => rfl
  | cons item rest ih =>
    rw [List.map_cons, List.nodup_cons] at hnd
    have hle : ¬ item.quantity > (ps item.product).quantity :=
      not_lt.mpr (hq item (List.mem_cons_self _ _))
    rw [mutationPass]
    unfold Product.reduceQuantity
    simp only [hle, if_false]
    apply ih _ hnd.2
    intro i hi
    have hne : i.product ≠ item.product := by
      intro heq
      exact hnd.1 (heq ▸ List.mem_map_of_mem CartItem.product hi)
    rw [Function.update_noteq hne]
    exact hq i (List.mem_cons_of_mem _ hi)

/-- The purchased quantity of any product is non-negative when all requests are positive. -/
theorem purchasedQuantity_nonneg (items : List CartItem) (r : ProductRef)
    (hpos : ∀ item ∈ items, 0 < item.quantity) : 0 ≤ purchasedQuantity items r := by
  unfold purchasedQuantity
  apply List.sum_nonneg
  intro x hx
  obtain ⟨i, hi, rfl⟩ := List.mem_map.mp hx
  exact le_of_lt (hpos i (List.mem_filter.mp hi).1)

/-- The purchased quantity of a product that an entry references is positive when all
requests are positive. -/
theorem purchasedQuantity_pos (items : List CartItem) (item : CartItem) (hmem : item ∈ items)
    (hpos : ∀ i ∈ items, 0 < i.quantity) : 0 < purchasedQuantity items item.product := by
  induction items with
  | nil => simp at hmem
  | cons a rest ih =>
    have ha := hpos a (List.mem_cons_self _ _)
    have hrest : ∀ i ∈ rest, 0 < i.quantity := fun i hi => hpos i (List.mem_cons_of_mem _ hi)
    have hnn := purchasedQuantity_nonneg rest item.product hrest
    unfold purchasedQuantity at hnn ih ⊢
    by_cases hp : a.product = item.product
    · simp only [List.filter_cons, hp, decide_True, if_true, List.map_cons, List.sum_cons]
      omega
    · simp only [List.filter_cons, hp, decide_False, Bool.false_eq_true, if_false]
      rcases List.mem_cons.mp hmem with heq | hmem
      · exact absurd (heq ▸ rfl) hp
      · exact ih hmem hrest

/-- The sample data of `main` is non-negative, also after the two calls
`cart.add(&biscuits, 2)`. -/
theorem nonNegative_repeatedBiscuitsWorld : NonNegative repeatedBiscuitsWorld := by
  rw [repeatedBiscuitsWorld_eq]
  refine ⟨fun r => ?_, by norm_num⟩
  simp only [mainProducts]
  split_ifs <;> simp

/-! ## Invariants and frame -/

/-- C11: non-negativity is an invariant of the state under every operation, in exact
arithmetic: if every product's quantity on hand and the customer's balance are at least 0,
they still are after `Cart.add`, after `Product.reduceQuantity` on any product, after
`Customer.deduct` and after `checkout`, whether the operation succeeds or fails at any
step (a failure in the middle of the mutation pass of checkout included). -/
theorem nonNegative_invariant (w : World) (h : NonNegative w) :
    (∀ (product : ProductRef) (quantity : Int), NonNegative (Cart.add product quantity w).2) ∧
    (∀ (r : ProductRef) (q : Int), 0 ≤ ((w.products r).reduceQuantity q).2.quantity) ∧
    (∀ amount : ℚ, 0 ≤ (w.customer.deduct amount).2.balance) ∧
    NonNegative (checkout w).2 := by
  obtain ⟨hq, hb⟩ := h
  refine ⟨fun product quantity => ?_, fun r q => ?_, fun amount => ?_, ?_, ?_⟩
  · unfold Cart.add
    split
    · exact ⟨hq, hb⟩
    · exact ⟨hq, hb⟩
  · unfold Product.reduceQuantity
    split
    · exact hq r
    · rename_i hle
      exact sub_nonneg.mpr (not_lt.mp hle)
  · unfold Customer.deduct
    split
    · exact hb
    · rename_i hle
      exact sub_nonneg.mpr (not_lt.mp hle)
  · intro r
    rcases (checkout_state w).2.2.1 with hp | hp
    · rw [hp]; exact hq r
    · rw [hp]; exact mutationPass_nonneg _ _ hq r
  · rcases (checkout_state w).2.2.2 with hc | ⟨total, hle, hc⟩
    · rw [hc]; exact hb
    · rw [hc]; exact sub_nonneg.mpr (not_lt.mp hle)

/-- Witness of C11: the state of `main` after two calls `cart.add(&biscuits, 2)`, on
which checkout fails in the middle of its mutation pass, is non-negative before and after
checkout. -/
theorem nonNegative_invariant_witness :
    NonNegative repeatedBiscuitsWorld ∧
    (checkout repeatedBiscuitsWorld).1 = .error .insufficientStockOnReduce ∧
    NonNegative (checkout repeatedBiscuitsWorld).2 :=
  ⟨nonNegative_repeatedBiscuitsWorld,
    by
      rw [repeatedBiscuitsWorld_eq]
      simp [checkout, Cart.isEmpty, Cart.getItems, validationPass, mainProducts,
        Product.isExpired, Product.getQuantity, Product.getPrice, Product.requiresShipping,
        Customer.deduct, mutationPass, Product.reduceQuantity, Function.update_apply]
      norm_num,
    (nonNegative_invariant repeatedBiscuitsWorld nonNegative_repeatedBiscuitsWorld).2.2.2⟩

/-! ## The cart built by `add` -/

/-- Counterexample to C12 as stated: from the empty cart of `main`, the call
`cart.add(&tv, -3)` is accepted and stores an entry whose requested quantity is not
positive. -/
theorem cart_add_nonpositive_counterexample :
    mainWorld.cart.items = [] ∧
    (Cart.add tvRef (-3) mainWorld).1 = .ok () ∧
    (Cart.add tvRef (-3) mainWorld).2.cart.items = [⟨tvRef, -3⟩] ∧
    ¬ ∀ item ∈ (Cart.add tvRef (-3) mainWorld).2.cart.items, 1 ≤ item.quantity := by
  have h : (Cart.add tvRef (-3) mainWorld).2.cart.items = [⟨tvRef, -3⟩] := by
    simp [Cart.add, mainWorld, mainProducts, Product.getQuantity, tvRef]
  refine ⟨rfl, ?_, h, ?_⟩
  · simp [Cart.add, mainWorld, mainProducts, Product.getQuantity, tvRef]
  · rw [h]
    simp

/-- C12, amended: `Cart.add` stores the quantity it is given and tests it against the
stock only, so starting from the empty cart, every entry of a cart built through calls of
`add` whose quantities are all positive has a positive requested quantity (at least 1):
positivity of all entries' quantities is preserved by an `add` of a positive quantity. -/
theorem cart_built_by_positive_adds (w : World) (calls : List (ProductRef × Int))
    (hempty : w.cart.items = []) (hpos : ∀ call ∈ calls, 1 ≤ call.2) :
    ∀ item ∈ (addCalls calls w).cart.items, 1 ≤ item.quantity :=
  addCalls_positive calls w (by simp [hempty]) hpos

/-- Witness of the amended C12: the four calls of `main` have positive quantities, and
so have the four entries of the cart they build. -/
theorem cart_built_by_positive_adds_witness :
    (addCalls mainCalls mainWorld).cart.items = [⟨0, 2⟩, ⟨1, 1⟩, ⟨2, 1⟩, ⟨3, 1⟩] ∧
    ∀ item ∈ (addCalls mainCalls mainWorld).cart.items, 1 ≤ item.quantity :=
  ⟨by rw [addCalls_mainCalls, mainCartWorld_eq],
    cart_built_by_positive_adds mainWorld mainCalls rfl (by simp [mainCalls])⟩

/-! ## The worked example of the specification -/

/-- C13: the worked example. With customer balance 800 and the products Cheese, Biscuits,
TV and Scratch Card of `main`, every one of the four calls of `add` is accepted, and
checkout succeeds with subtotal 700, shipping 10, total 710 and remaining balance 90; the
stocks afterwards are Cheese 3, Biscuits 2, TV 3, Scratch Card 9; the shipment notice has
the single entry 1 x TV of line weight 10000 g and the total package weight 10 kg. -/
theorem main_worked_example :
    mainWorld.customer.balance = 800 ∧
    mainProducts cheeseRef = ⟨"Cheese", 100, 5, .expirable false⟩ ∧
    mainProducts biscuitsRef = ⟨"Biscuits", 150, 3, .expirable false⟩ ∧
    mainProducts tvRef = ⟨"TV", 300, 4, .shippable 10000⟩ ∧
    mainProducts scratchCardRef = ⟨"Scratch Card", 50, 10, .base⟩ ∧
    (Cart.add cheeseRef 2 mainWorld).1 = .ok () ∧
    (Cart.add biscuitsRef 1 (Cart.add cheeseRef 2 mainWorld).2).1 = .ok () ∧
    (Cart.add tvRef 1 (Cart.add biscuitsRef 1 (Cart.add cheeseRef 2 mainWorld).2).2).1 =
      .ok () ∧
    (Cart.add scratchCardRef 1 (Cart.add tvRef 1 (Cart.add biscuitsRef 1
      (Cart.add cheeseRef 2 mainWorld).2).2).2).1 = .ok () ∧
    (checkout mainCartWorld).1 =
      .ok { shipment := some ⟨[⟨1, "TV", 10000⟩], some 10⟩
            receipt := ⟨[⟨2, "Cheese", 200⟩, ⟨1, "Biscuits", 150⟩, ⟨1, "TV", 300⟩,
              ⟨1, "Scratch Card", 50⟩], 700, 10, 710, 90⟩ } ∧
    (checkout mainCartWorld).2.customer.balance = 90 ∧
    ((checkout mainCartWorld).2.products cheeseRef).quantity = 3 ∧
    ((checkout mainCartWorld).2.products biscuitsRef).quantity = 2 ∧
    ((checkout mainCartWorld).2.products tvRef).quantity = 3 ∧
    ((checkout mainCartWorld).2.products scratchCardRef).quantity = 9 := by
  have hs : (checkout mainCartWorld).2 =
      { products := (mutationPass [⟨0, 2⟩, ⟨1, 1⟩, ⟨2, 1⟩, ⟨3, 1⟩] mainProducts).2
        customer := ⟨"Anton", 90⟩
        cart := ⟨[⟨0, 2⟩, ⟨1, 1⟩, ⟨2, 1⟩, ⟨3, 1⟩]⟩ } := by
    rw [mainCartWorld_eq]
    simp [checkout, Cart.isEmpty, Cart.getItems, validationPass, mainProducts,
      Product.isExpired, Product.getQuantity, Product.getPrice, Product.requiresShipping,
      Customer.deduct, mutationPass, Product.reduceQuantity, Function.update_apply]
    norm_num
  refine ⟨rfl, ?_, ?_, ?_, ?_, ?_, ?_, ?_, ?_, checkout_mainCartWorld_outcome, ?_, ?_, ?_,
    ?_, ?_⟩
  · simp [mainProducts, cheeseRef]
  · simp [mainProducts, biscuitsRef]
  · simp [mainProducts, tvRef]
  · simp [mainProducts, scratchCardRef]
  · simp [Cart.add, mainWorld, mainProducts, Product.getQuantity, cheeseRef]
  · simp [Cart.add, mainWorld, mainProducts, Product.getQuantity, cheeseRef, biscuitsRef]
  · simp [Cart.add, mainWorld, mainProducts, Product.getQuantity, cheeseRef, biscuitsRef,
      tvRef]
  · simp [Cart.add, mainWorld, mainProducts, Product.getQuantity, cheeseRef, biscuitsRef,
      tvRef, scratchCardRef]
  · rw [hs]
  · rw [hs]
    simp [mutationPass, Product.reduceQuantity, mainProducts, Function.update_apply, cheeseRef]
  · rw [hs]
    simp [mutationPass, Product.reduceQuantity, mainProducts, Function.update_apply,
      biscuitsRef]
  · rw [hs]
    simp [mutationPass, Product.reduceQuantity, mainProducts, Function.update_apply, tvRef]
  · rw [hs]
    simp [mutationPass, Product.reduceQuantity, mainProducts, Function.update_apply,
      scratchCardRef]

/-! ## Validation order -/

/-- C14: validation order of checkout. For every non-empty cart, the validation pass
fails if and only if some entry is offending (its product is expired, or its requested
quantity exceeds the product's quantity on hand); the error raised is the one of the
first offending entry in cart order (`pre` holds the entries before it, none offending;
`post` the entries after it) and carries that entry's product name, ExpiredProduct(name)
when the entry's product is expired, even if its quantity also exceeds the stock, and
OutOfStock(name) otherwise; checkout fails with that error and changes no state. -/
theorem validation_reports_first_offending (w : World) (hne : w.cart.items ≠ []) :
    ((∃ err, validationPass w.products w.cart.items ⟨0, 0, []⟩ = .error err) ↔
      ∃ item ∈ w.cart.items, Offending w.products item) ∧
    ∀ (pre post : List CartItem) (e : CartItem),
      w.cart.items = pre ++ e :: post →
      (∀ item ∈ pre, ¬ Offending w.products item) →
      Offending w.products e →
      validationPass w.products w.cart.items ⟨0, 0, []⟩ = .error (offenceOf w.products e) ∧
      (checkout w).1 = .error (offenceOf w.products e) ∧
      (checkout w).2 = w := by
  have hfirst : ∀ (pre post : List CartItem) (e : CartItem),
      w.cart.items = pre ++ e :: post →
      (∀ item ∈ pre, ¬ Offending w.products item) →
      Offending w.products e →
      validationPass w.products w.cart.items ⟨0, 0, []⟩ = .error (offenceOf w.products e) := by
    intro pre post e hitems hpre he
    have hvalid : ∀ item ∈ pre, ItemValid w.products item := fun i hi =>
      itemValid_of_not_offending w.products i (hpre i hi)
    rw [hitems]
    cases hx : (w.products e.product).isExpired with
    | true =>
      rw [validationPass_first_expired w.products pre post e _ hvalid hx]
      simp [offenceOf, hx, Product.getName]
    | false =>
      have hq : e.quantity > (w.products e.product).quantity := by
        rcases he with he | he
        · rw [hx] at he; exact absurd he (by simp)
        · exact he
      rw [validationPass_first_overstock w.products pre post e _ hvalid hx hq]
      simp [offenceOf, hx, Product.getName]
  refine ⟨⟨fun ⟨err, herr⟩ => ?_, fun ⟨item, hmem, hoff⟩ => ?_⟩, fun pre post e hitems hpre he => ?_⟩
  · by_contra hnone
    push_neg at hnone
    have hvalid : ∀ item ∈ w.cart.items, ItemValid w.products item := fun i hi =>
      itemValid_of_not_offending w.products i (hnone i hi)
    rw [validationPass_start _ _ hvalid] at herr
    exact absurd herr (by simp)
  · cases hv : validationPass w.products w.cart.items ⟨0, 0, []⟩ with
    | error err => exact ⟨err, rfl⟩
    | ok t =>
      obtain ⟨hx, hq⟩ := valid_of_validationPass_ok _ _ _ _ hv item hmem
      rcases hoff with hoff | hoff
      · rw [hx] at hoff; exact absurd hoff (by simp)
      · exact absurd hq (not_le.mpr hoff)
  · have hv := hfirst pre post e hitems hpre he
    rw [checkout_of_validation_error w _ hne hv]
    exact ⟨hv, rfl, rfl⟩

/-- Witness of C14: in a cart whose second entry is expired as well as above stock, after
a valid entry and before another entry above stock, checkout reports the second entry, as
ExpiredProduct("Cheese"), and changes nothing. -/
theorem validation_reports_first_offending_witness :
    (∃ item ∈ expiredAndOverStockWorld.cart.items,
      Offending expiredAndOverStockWorld.products item) ∧
    (checkout expiredAndOverStockWorld).1 = .error (.expiredProduct "Cheese") ∧
    (checkout expiredAndOverStockWorld).2 = expiredAndOverStockWorld :=
  have h := validation_reports_first_offending expiredAndOverStockWorld
    (by simp [expiredAndOverStockWorld])
  have h2 := h.2 [⟨0, 1⟩] [⟨0, 9⟩] ⟨1, 9⟩ (by simp [expiredAndOverStockWorld])
    (by simp [expiredAndOverStockWorld, Offending, Product.isExpired])
    (by simp [expiredAndOverStockWorld, Offending, Product.isExpired])
  ⟨h.1.mp ⟨_, h2.1⟩,
    h2.2.1.trans (by simp [offenceOf, expiredAndOverStockWorld, Product.isExpired]),
    h2.2.2⟩

/-! ## All-or-nothing, frame and the list handed to `ship` -/

/-- C17: all-or-nothing checkout for carts without repeated products. For every cart
whose entries reference pairwise distinct products, checkout either succeeds, or fails
with the customer's balance and every product's quantity on hand exactly as before the
call. -/
theorem checkout_all_or_nothing (w : World)
    (hnd : (w.cart.items.map CartItem.product).Nodup) :
    (∃ out, (checkout w).1 = .ok out) ∨
    ((∃ err, (checkout w).1 = .error err) ∧
      (checkout w).2.customer.balance = w.customer.balance ∧
      ∀ r : ProductRef, ((checkout w).2.products r).quantity = (w.products r).quantity) := by
  by_cases hne : w.cart.items = []
  · right
    simp [checkout, Cart.isEmpty, hne]
  · cases hv : validationPass w.products w.cart.items ⟨0, 0, []⟩ with
    | error e =>
      right
      rw [checkout_of_validation_error w e hne hv]
      exact ⟨⟨e, rfl⟩, rfl, fun _ => rfl⟩
    | ok t =>
      by_cases hb : w.customer.balance < t.subtotal + t.shipping
      · right
        rw [checkout_of_insufficient w t hne hv hb]
        exact ⟨⟨_, rfl⟩, rfl, fun _ => rfl⟩
      · left
        have hvalid := valid_of_validationPass_ok _ _ _ _ hv
        have hm := mutationPass_ok_of_nodup w.cart.items w.products hnd
          (fun i hi => (hvalid i hi).2)
        rw [checkout_of_charged w t hne hv hb]
        rcases hmp : mutationPass w.cart.items w.products with ⟨r, products⟩
        rw [hmp] at hm
        simp only at hm
        subst hm
        exact ⟨_, rfl⟩

/-- Witness of C17: the carts of `main` reference four distinct products; with balance
800 checkout succeeds, with balance 700 it fails and changes neither balance nor stock. -/
theorem checkout_all_or_nothing_witness :
    ((∃ out, (checkout mainCartWorld).1 = .ok out) ∨
      ((∃ err, (checkout mainCartWorld).1 = .error err) ∧
        (checkout mainCartWorld).2.customer.balance = mainCartWorld.customer.balance ∧
        ∀ r : ProductRef,
          ((checkout mainCartWorld).2.products r).quantity =
            (mainCartWorld.products r).quantity)) ∧
    ((∃ out, (checkout shortBalanceWorld).1 = .ok out) ∨
      ((∃ err, (checkout shortBalanceWorld).1 = .error err) ∧
        (checkout shortBalanceWorld).2.customer.balance = shortBalanceWorld.customer.balance ∧
        ∀ r : ProductRef,
          ((checkout shortBalanceWorld).2.products r).quantity =
            (shortBalanceWorld.products r).quantity)) :=
  ⟨checkout_all_or_nothing mainCartWorld (by simp [mainCartWorld_eq]),
    checkout_all_or_nothing shortBalanceWorld (by simp [shortBalanceWorld, mainCartWorld_eq])⟩

/-- C18: frame of checkout. In every outcome, checkout leaves the cart's entry list
unchanged, leaves every product's name, price, expired flag, shipping flag and weight
unchanged, leaves the customer's name unchanged, and leaves unchanged the quantity on hand
of every product that no cart entry references. -/
theorem checkout_frame (w : World) :
    (checkout w).2.cart.items = w.cart.items ∧
    (∀ r : ProductRef,
      ((checkout w).2.products r).name = (w.products r).name ∧
      ((checkout w).2.products r).price = (w.products r).price ∧
      ((checkout w).2.products r).isExpired = (w.products r).isExpired ∧
      ((checkout w).2.products r).requiresShipping = (w.products r).requiresShipping ∧
      ((checkout w).2.products r).getWeight = (w.products r).getWeight) ∧
    (checkout w).2.customer.name = w.customer.name ∧
    (∀ r : ProductRef, (∀ item ∈ w.cart.items, item.product ≠ r) →
      ((checkout w).2.products r).quantity = (w.products r).quantity) := by
  obtain ⟨hcart, hname, hprod, -⟩ := checkout_state w
  refine ⟨by rw [hcart], fun r => ?_, hname, fun r hr => ?_⟩
  · rcases hprod with hp | hp
    · rw [hp]; exact ⟨rfl, rfl, rfl, rfl, rfl⟩
    · obtain ⟨h1, h2, h3, -⟩ := mutationPass_frame w.cart.items w.products r
      rw [hp]
      refine ⟨h1, h2, ?_, ?_, ?_⟩
      · simp only [Product.isExpired, h3]
      · simp only [Product.requiresShipping, h3]
      · simp only [Product.getWeight, h3]
  · rcases hprod with hp | hp
    · rw [hp]
    · rw [hp, (mutationPass_frame w.cart.items w.products r).2.2.2 hr]

/-- Witness of C18: the checkout that fails in the middle of its mutation pass leaves the
cart as it was and does not touch the stock of TVs, which no entry references. -/
theorem checkout_frame_witness :
    (checkout repeatedBiscuitsWorld).2.cart.items = repeatedBiscuitsWorld.cart.items ∧
    ((checkout repeatedBiscuitsWorld).2.products tvRef).quantity =
      (repeatedBiscuitsWorld.products tvRef).quantity :=
  ⟨(checkout_frame repeatedBiscuitsWorld).1,
    (checkout_frame repeatedBiscuitsWorld).2.2.2 tvRef
      (by simp [repeatedBiscuitsWorld_eq, tvRef])⟩

/-- C20: the list `shippables` that checkout hands to `ShippingService::ship` is the
cart's entry list filtered by `requiresShipping`, in cart order; hence the filter inside
`ship` keeps all of it, and `ship(shippables)` produces the same notice, lines and total
weight, as `ship` applied to the full entry list, with the products as they are before
checkout and as checkout leaves them; so the notice of a successful checkout on a cart
with at least one shippable entry is the one `ship` would print for the full cart. -/
theorem shippables_are_filtered_cart (w : World) (t : Totals)
    (h : validationPass w.products w.cart.items ⟨0, 0, []⟩ = .ok t) :
    t.shippables =
      w.cart.items.filter (fun item => (w.products item.product).requiresShipping) ∧
    t.shippables.filter (fun item => (w.products item.product).requiresShipping) =
      t.shippables ∧
    ShippingService.ship w.products t.shippables =
      ShippingService.ship w.products w.cart.items ∧
    ShippingService.ship (checkout w).2.products t.shippables =
      ShippingService.ship (checkout w).2.products w.cart.items ∧
    ∀ out : Output, (checkout w).1 = .ok out →
      (∃ item ∈ w.cart.items, (w.products item.product).requiresShipping = true) →
      out.shipment = some (ShippingService.ship (checkout w).2.products w.cart.items) := by
  have ht := validationPass_ok_eq _ _ _ h
  subst ht
  have hcongr : ∀ items : List CartItem,
      shipmentNoticeOf (checkout w).2.products items = shipmentNoticeOf w.products items :=
    fun items => shipmentNoticeOf_congr w.products (checkout w).2.products items
      (fun r => (checkout_products_frame w r).1) (fun r => (checkout_products_frame w r).2.2)
  refine ⟨rfl, shippableItems_idem w.products w.cart.items, ?_, ?_, fun out hout hex => ?_⟩
  · simp only [ship_eq, shipmentNoticeOf_shippableItems]
  · simp only [ship_eq, hcongr, shipmentNoticeOf_shippableItems]
  · rw [(checkout_ok_output w out hout).1, ship_eq, hcongr]
    obtain ⟨item, hmem, hship⟩ := hex
    have hin : item ∈ shippableItems w.products w.cart.items := by
      simp [shippableItems, List.mem_filter, hmem, hship]
    cases hf : shippableItems w.products w.cart.items with
    | nil => rw [hf] at hin; simp at hin
    | cons a l => simp

/-- Witness of C20: in the checkout of `main` the list handed to `ship` is the single TV
entry, and the notice is the one `ship` prints for the full cart. -/
theorem shippables_are_filtered_cart_witness :
    validationPass mainCartWorld.products mainCartWorld.cart.items ⟨0, 0, []⟩ =
      .ok ⟨700, 10, [⟨2, 1⟩]⟩ ∧
    ShippingService.ship mainCartWorld.products [⟨2, 1⟩] =
      ShippingService.ship mainCartWorld.products mainCartWorld.cart.items ∧
    mainOutput.shipment =
      some (ShippingService.ship (checkout mainCartWorld).2.products mainCartWorld.cart.items) :=
  have hv : validationPass mainCartWorld.products mainCartWorld.cart.items ⟨0, 0, []⟩ =
      .ok ⟨700, 10, [⟨2, 1⟩]⟩ := by
    rw [mainCartWorld_eq]; exact validationPass_main
  have h := shippables_are_filtered_cart mainCartWorld ⟨700, 10, [⟨2, 1⟩]⟩ hv
  ⟨hv, h.2.2.1,
    h.2.2.2.2 mainOutput checkout_mainCartWorld_outcome
      ⟨⟨2, 1⟩, by simp [mainCartWorld_eq],
        by simp [mainCartWorld_eq, mainProducts, Product.requiresShipping]⟩⟩

/-! ## Lemmas on machine numbers -/

namespace Double

/-- The halving loop counts the binary digits of a number it has fuel for. -/
theorem bitLengthAux_spec (fuel n : Nat) (h : n < 2 ^ fuel) :
    n < 2 ^ bitLengthAux fuel n ∧ (0 < n → 2 ^ (bitLengthAux fuel n - 1) ≤ n) := by
  induction fuel generalizing n with
  | zero =>
    have : n = 0 := by simpa using h
    subst this
    simp [bitLengthAux]
  | succ fuel ih =>
    rw [bitLengthAux]
    by_cases hn : n = 0
    · subst hn
      simp
    · simp only [hn, if_false]
      have hhalf : n / 2 < 2 ^ fuel := by
        rw [pow_succ] at h
        omega
      obtain ⟨hup, hlow⟩ := ih (n / 2) hhalf
      refine ⟨?_, fun _ => ?_⟩
      · rw [pow_succ]
        omega
      · simp only [Nat.add_sub_cancel]
        by_cases h2 : n / 2 = 0
        · have : bitLengthAux fuel (n / 2) = 0 := by
            rw [h2]
            cases fuel <;> simp [bitLengthAux]
          rw [this]
          simp
          omega
        · have hpos : 0 < n / 2 := Nat.pos_of_ne_zero h2
          have hl := hlow hpos
          have hL : 1 ≤ bitLengthAux fuel (n / 2) := by
            by_contra hc
            have : bitLengthAux fuel (n / 2) = 0 := by omega
            rw [this] at hup
            simp at hup
            omega
          have : 2 ^ bitLengthAux fuel (n / 2) = 2 ^ (bitLengthAux fuel (n / 2) - 1) * 2 := by
            rw [← pow_succ]
            congr 1
            omega
          rw [this]
          omega

/-- A number has `bitLength` binary digits. -/
theorem bitLength_spec (n : Nat) :
    n < 2 ^ bitLength n ∧ (0 < n → 2 ^ (bitLength n - 1) ≤ n) :=
  bitLengthAux_spec n n (Nat.lt_two_pow n)

/-- A number below `2 ^ b` has at most `b` binary digits. -/
theorem bitLength_le (n b : Nat) (h : n < 2 ^ b) : bitLength n ≤ b := by
  by_cases hn : n = 0
  · subst hn
    unfold bitLength bitLengthAux
    simp
  · have hlow := (bitLength_spec n).2 (Nat.pos_of_ne_zero hn)
    by_contra hc
    have hb : b ≤ bitLength n - 1 := by omega
    have : 2 ^ b ≤ 2 ^ (bitLength n - 1) := Nat.pow_le_pow_right (by norm_num) hb
    omega

/-- Rounding a quotient to the nearest integer does not pass an integer bound of it. -/
theorem roundDiv_le (a b K : Nat) (hb : 0 < b) (h : a ≤ K * b) : roundDiv a b ≤ K := by
  have hq : a / b ≤ K := by
    calc a / b ≤ K * b / b := Nat.div_le_div_right h
      _ = K := Nat.mul_div_cancel K hb
  unfold roundDiv
  split
  · exact hq
  · split
    · exact hq
    · rename_i h1 h2
      have hr : 0 < a % b := by omega
      have hdm := Nat.div_add_mod a b
      by_contra hc
      have hK : K ≤ a / b := by omega
      have : K * b ≤ b * (a / b) := by
        rw [Nat.mul_comm]
        exact Nat.mul_le_mul_left b hK
      omega

end Double

namespace Double

/-- The integer `(-1)^neg * n` with the sign bit flipped is its opposite. -/
theorem signed_not (a : Bool) (n : Nat) : signed (!a) n = -signed a n := by
  cases a <;> simp [signed]

/-- Comparison of two finite doubles with sign bit clear, the first on the finer grid. -/
theorem le_fin_of (m' m : Nat) (e' e : Int) (hee : e' ≤ e)
    (h : m' ≤ m * 2 ^ (e - e').toNat) :
    le (.fin false m' e') (.fin false m e) = true := by
  have hmin : min e e' = e' := min_eq_right hee
  have h0 : (e' - e').toNat = 0 := by omega
  simp only [le, lt, signed, hmin, h0, pow_zero, mul_one, Bool.not_eq_true', decide_eq_false_iff_not,
    not_lt, if_false, Bool.false_eq_true]
  exact_mod_cast h

/-- Rounding to the nearest double does not pass a double that bounds the number rounded:
for a positive number `S * 2^k` that is at most the finite double `m * 2^e`, the rounded
number is at most `m * 2^e`. -/
theorem round_le (S m : Nat) (k e : Int) (hS : 0 < S) (hke : k ≤ e) (hm : m < 2 ^ 53)
    (he1 : -1074 ≤ e) (he2 : e ≤ 971) (h : S ≤ m * 2 ^ (e - k).toNat) :
    le (round false S k) (.fin false m e) = true := by
  obtain ⟨hup, hlow⟩ := bitLength_spec S
  have hlow := hlow hS
  -- the exponent chosen for the rounded number is at most `e`
  have hB : (bitLength S : Int) ≤ 53 + (e - k) := by
    have h1 : 2 ^ (bitLength S - 1) < 2 ^ (53 + (e - k).toNat) := by
      calc 2 ^ (bitLength S - 1) ≤ S := hlow
        _ ≤ m * 2 ^ (e - k).toNat := h
        _ < 2 ^ 53 * 2 ^ (e - k).toNat :=
          Nat.mul_lt_mul_of_pos_right hm (Nat.two_pow_pos _)
        _ = 2 ^ (53 + (e - k).toNat) := (pow_add 2 53 _).symm
    have h2 : bitLength S - 1 < 53 + (e - k).toNat :=
      (Nat.pow_lt_pow_iff_right (by norm_num)).mp h1
    omega
  have hee : max (k + (bitLength S : Int) - 53) (-1074) ≤ e := max_le (by omega) he1
  generalize hE : max (k + (bitLength S : Int) - 53) (-1074) = e' at hee
  -- the rounded mantissa is at most `m * 2^(e - e')`
  have hmr : (if e' ≤ k then S * 2 ^ (k - e').toNat else roundDiv S (2 ^ (e' - k).toNat)) ≤
      m * 2 ^ (e - e').toNat := by
    split
    · rename_i hek
      have hsplit : (e - e').toNat = (e - k).toNat + (k - e').toNat := by omega
      rw [hsplit, pow_add, ← Nat.mul_assoc]
      exact Nat.mul_le_mul_right _ h
    · rename_i hek
      have hsplit : (e - k).toNat = (e - e').toNat + (e' - k).toNat := by omega
      apply roundDiv_le _ _ _ (Nat.two_pow_pos _)
      rw [Nat.mul_assoc, ← pow_add, ← hsplit]
      exact h
  unfold round
  simp only [hE]
  generalize (if e' ≤ k then S * 2 ^ (k - e').toNat else roundDiv S (2 ^ (e' - k).toNat)) = mr
    at hmr
  by_cases h0 : mr = 0
  · simp only [h0, if_true]
    simp [le, lt, signed]
  · simp only [h0, if_false]
    by_cases h53 : mr = 2 ^ 53
    · simp only [h53, if_true]
      rw [h53] at hmr
      have hd : 1 ≤ (e - e').toNat := by
        by_contra hc
        have : (e - e').toNat = 0 := by omega
        rw [this] at hmr
        simp at hmr
        omega
      have hne : ¬ (971 < e' + 1) := by omega
      simp only [hne, if_false]
      apply le_fin_of _ _ _ _ (by omega)
      have hsplit : (e - e').toNat = (e - (e' + 1)).toNat + 1 := by omega
      have hpow : m * 2 ^ (e - e').toNat = m * 2 ^ (e - (e' + 1)).toNat * 2 := by
        rw [hsplit, pow_succ, Nat.mul_assoc]
      have h2 : (2 : Nat) ^ 53 = 2 ^ 52 * 2 := by norm_num
      rw [hpow, h2] at hmr
      exact Nat.le_of_mul_le_mul_right hmr (by norm_num)
    · simp only [h53, if_false]
      have hne : ¬ (971 < e') := by omega
      simp only [hne, if_false]
      exact le_fin_of _ _ _ _ hee hmr

end Double

namespace Double

/-- The doubles `d` with `0 <= d` are the doubles that are not negative. -/
theorem le_zero_iff_nonNeg (d : Double) : le (ofInt 0) d = true ↔ NonNeg d := by
  have h0 : ofInt 0 = .fin false 0 0 := by decide
  rw [h0]
  cases d with
  | nan => simp [le, NonNeg]
  | inf a => cases a <;> simp [le, lt, NonNeg]
  | fin a m e =>
    cases a with
    | false => simp [le, lt, NonNeg, signed]
    | true =>
      simp only [le, lt, NonNeg, signed, Bool.not_eq_true', decide_eq_false_iff_not, not_lt,
        if_true, if_false, Bool.false_eq_true, false_or, Bool.true_eq_false]
      constructor
      · intro h
        by_contra hm
        have hm' : 0 < m := Nat.pos_of_ne_zero hm
        have hp : (0 : Int) < (m : Int) * 2 ^ (e - min e 0).toNat :=
          mul_pos (by exact_mod_cast hm') (by positivity)
        simp at h
        linarith
      · intro hm
        subst hm
        simp

/-- A number rounded with sign bit clear is not negative. -/
theorem nonNeg_round (n : Nat) (k : Int) : NonNeg (round false n k) := by
  unfold round
  simp only
  split_ifs <;> simp [NonNeg]

/-- Rounding zero gives a zero. -/
theorem round_zero (a : Bool) (k : Int) : round a 0 k = .fin a 0 0 := by
  unfold round roundDiv
  simp

/-- The sum of two doubles that are not negative is not negative. -/
theorem nonNeg_add (x y : Double) (hx : NonNeg x) (hy : NonNeg y) : NonNeg (add x y) := by
  cases x with
  | nan => exact absurd hx (by simp [NonNeg])
  | inf a =>
    cases y with
    | nan => exact absurd hy (by simp [NonNeg])
    | inf b =>
      simp only [NonNeg] at hx hy
      subst hx hy
      simp [add, NonNeg]
    | fin b n f => simpa [add, NonNeg] using hx
  | fin a m e =>
    cases y with
    | nan => exact absurd hy (by simp [NonNeg])
    | inf b => simpa [add, NonNeg] using hy
    | fin b n f =>
      simp only [add]
      have h1 : 0 ≤ signed a (m * 2 ^ (e - min e f).toNat) := by
        rcases hx with hx | hx
        · subst hx; simp [signed]
        · subst hx; cases a <;> simp [signed]
      have h2 : 0 ≤ signed b (n * 2 ^ (f - min e f).toNat) := by
        rcases hy with hy | hy
        · subst hy; simp [signed]
        · subst hy; cases b <;> simp [signed]
      split
      · simp [NonNeg]
      · have : ¬ (signed a (m * 2 ^ (e - min e f).toNat) +
            signed b (n * 2 ^ (f - min e f).toNat) < 0) := by omega
        simp only [this, decide_False]
        exact nonNeg_round _ _

/-- The conversion of a positive `int` is a finite double with sign bit clear that is not
zero. -/
theorem ofInt_pos (q : Int) (hq : 0 < q) (hq2 : q ≤ 2147483647) :
    ∃ m e, ofInt q = .fin false m e ∧ m ≠ 0 := by
  have hn : q.natAbs < 2 ^ 53 := by
    have : q.natAbs ≤ 2147483647 := by omega
    calc q.natAbs ≤ 2147483647 := this
      _ < 2 ^ 53 := by norm_num
  have hB := bitLength_le _ _ hn
  have hn0 : q.natAbs ≠ 0 := by omega
  have hneg : decide (q < 0) = false := by simp; omega
  unfold ofInt round
  simp only [hneg]
  have hE : max (0 + (bitLength q.natAbs : Int) - 53) (-1074) ≤ 0 := max_le (by omega) (by norm_num)
  generalize max (0 + (bitLength q.natAbs : Int) - 53) (-1074) = e at hE
  simp only [hE, if_true]
  have hm0 : q.natAbs * 2 ^ (0 - e).toNat ≠ 0 :=
    Nat.mul_ne_zero hn0 (Nat.pos_iff_ne_zero.mp (Nat.two_pow_pos _))
  simp only [hm0, if_false]
  have h1 : ¬ (971 < e + 1) := by omega
  have h2 : ¬ (971 < e) := by omega
  simp only [h1, h2, if_false]
  split
  · exact ⟨_, _, rfl, by norm_num⟩
  · exact ⟨_, _, rfl, hm0⟩

/-- The product of a double that is not negative and a positive `int` is not negative. -/
theorem nonNeg_mul_ofInt (x : Double) (q : Int) (hx : NonNeg x) (hq : 0 < q)
    (hq2 : q ≤ 2147483647) : NonNeg (mul x (ofInt q)) := by
  obtain ⟨n, f, hof, hn⟩ := ofInt_pos q hq hq2
  rw [hof]
  cases x with
  | nan => exact absurd hx (by simp [NonNeg])
  | inf a =>
    simp only [NonNeg] at hx
    subst hx
    simp [mul, hn, NonNeg]
  | fin a m e =>
    simp only [mul]
    rcases hx with hx | hx
    · subst hx
      exact nonNeg_round _ _
    · subst hx
      simp [round_zero, NonNeg]

/-- Subtracting a double that is not negative and not larger does not raise a finite
double: if `b` is a finite double in canonical form, `0 <= t` and `b < t` is false, then
`b - t <= b`. -/
theorem sub_le_self_of_nonNeg (b t : Double) (hv : Valid b) (hf : IsFinite b) (ht : NonNeg t)
    (hlt : lt b t = false) : le (sub b t) b = true := by
  cases b with
  | nan => exact absurd hf (by simp [IsFinite])
  | inf a => exact absurd hf (by simp [IsFinite])
  | fin a m e =>
    have hm : m < 2 ^ 53 := by
      rcases hv with ⟨h1, -⟩ | ⟨-, h1, -⟩
      · rw [h1]; norm_num
      · exact h1
    have he1 : -1074 ≤ e := by
      rcases hv with ⟨-, h1⟩ | ⟨-, -, h1, -⟩
      · rw [h1]; norm_num
      · exact h1
    have he2 : e ≤ 971 := by
      rcases hv with ⟨-, h1⟩ | ⟨-, -, -, h1, -⟩
      · rw [h1]; norm_num
      · exact h1
    cases t with
    | nan => exact absurd ht (by simp [NonNeg])
    | inf c =>
      simp only [NonNeg] at ht
      subst ht
      simp [lt] at hlt
    | fin c n f =>
      simp only [lt, decide_eq_false_iff_not, not_lt] at hlt
      have h2 : 0 ≤ signed c (n * 2 ^ (f - min e f).toNat) := by
        rcases ht with ht | ht
        · subst ht; simp [signed]
        · subst ht; cases c <;> simp [signed]
      simp only [sub, neg, add, signed_not]
      split
      · -- the difference is zero
        have h1 : 0 ≤ signed a (m * 2 ^ (e - min e f).toNat) := le_trans h2 hlt
        have ha : a = false ∨ m = 0 := by
          cases a with
          | false => exact Or.inl rfl
          | true =>
            right
            simp only [signed, if_true] at h1
            have hz : m * 2 ^ (e - min e f).toNat = 0 := by omega
            rcases Nat.mul_eq_zero.mp hz with hz | hz
            · exact hz
            · exact absurd hz (Nat.pos_iff_ne_zero.mp (Nat.two_pow_pos _))
        rcases ha with ha | ha
        · subst ha
          simp [le, lt, signed]
        · subst ha
          simp [le, lt, signed]
      · rename_i hs
        have hpos : 0 < signed a (m * 2 ^ (e - min e f).toNat) +
            -signed c (n * 2 ^ (f - min e f).toNat) := by omega
        have hneg : ¬ (signed a (m * 2 ^ (e - min e f).toNat) +
            -signed c (n * 2 ^ (f - min e f).toNat) < 0) := by omega
        simp only [hneg, decide_False]
        have ha : a = false := by
          cases a with
          | false => rfl
          | true =>
            simp only [signed, if_true] at hpos h2 hlt
            omega
        subst ha
        simp only [signed, if_false, Bool.false_eq_true] at hpos hlt h2 ⊢
        apply round_le _ _ _ _ (by omega) (min_le_left e f) hm he1 he2
        omega

end Double

/-! ## Lemmas on the program on machine numbers -/

namespace Machine

/-- The validation loop runs through a block of accepted entries, adding their line totals
and their shipping fees to the accumulators with double additions, in cart order. -/
theorem validationPass_accepts (products : Products) (pre rest : List CartItem) (acc : Totals)
    (h : ∀ item ∈ pre, ItemValid products item) :
    validationPass products (pre ++ rest) acc =
      validationPass products rest
        ⟨pre.foldl (fun a item => Double.add a (lineTotal products item)) acc.subtotal,
          (shippableItems products pre).foldl (fun a _ => Double.add a (Double.ofInt 10))
            acc.shipping,
          acc.shippables ++ shippableItems products pre⟩ := by
  induction pre generalizing acc with
  | nil => simp [shippableItems]
  | cons item pre ih =>
    obtain ⟨he, hq⟩ := h item (List.mem_cons_self _ _)
    have hr : ∀ i ∈ pre, ItemValid products i := fun i hi => h i (List.mem_cons_of_mem _ hi)
    have hq' : ¬ item.quantity > (products item.product).getQuantity := not_lt.mpr hq
    rw [List.cons_append, validationPass]
    simp only [he, hq', if_false, Bool.false_eq_true]
    cases hs : (products item.product).requiresShipping with
    | true =>
      simp only [if_true, ih _ hr]
      simp [shippableItems, List.filter_cons, hs, lineTotal, Product.getPrice]
    | false =>
      simp only [Bool.false_eq_true, if_false, ih _ hr]
      simp [shippableItems, List.filter_cons, hs, lineTotal, Product.getPrice]

/-- Started as `checkout` starts it, the validation loop of a cart of accepted entries
returns the subtotal, the shipping fee and the shippable entries. -/
theorem validationPass_totals (products : Products) (items : List CartItem)
    (h : ∀ item ∈ items, ItemValid products item) :
    validationPass products items ⟨Double.ofInt 0, Double.ofInt 0, []⟩ =
      .ok ⟨subtotalOf products items, shippingFeeOf products items,
        shippableItems products items⟩ := by
  have := validationPass_accepts products items [] ⟨Double.ofInt 0, Double.ofInt 0, []⟩ h
  rw [List.append_nil] at this
  rw [this, validationPass]
  simp [subtotalOf, shippingFeeOf]

/-- Every entry of a cart on which the validation loop returns normally is accepted. -/
theorem accepted_of_validationPass_ok (products : Products) (items : List CartItem)
    (acc t : Totals) (h : validationPass products items acc = .ok t) :
    ∀ item ∈ items, ItemValid products item := by
  induction items generalizing acc with
  | nil => simp
  | cons item rest ih =>
    rw [validationPass] at h
    cases he : (products item.product).isExpired with
    | true => simp [he] at h
    | false =>
      by_cases hq : item.quantity > (products item.product).getQuantity
      · simp [he, hq] at h
      · simp only [he, hq, if_false, Bool.false_eq_true] at h
        have hv : ItemValid products item := ⟨he, not_lt.mp hq⟩
        intro i hi
        rcases List.mem_cons.mp hi with rfl | hi
        · exact hv
        · split at h
          · exact ih _ h i hi
          · exact ih _ h i hi

/-- The totals the validation loop returns, started as `checkout` starts it. -/
theorem validationPass_ok_totals (products : Products) (items : List CartItem) (t : Totals)
    (h : validationPass products items ⟨Double.ofInt 0, Double.ofInt 0, []⟩ = .ok t) :
    t = ⟨subtotalOf products items, shippingFeeOf products items,
      shippableItems products items⟩ := by
  have hvalid := accepted_of_validationPass_ok _ _ _ _ h
  rw [validationPass_totals _ _ hvalid] at h
  injection h with h
  exact h.symm

end Machine

/-- Wrapping leaves an `int` as it is. -/
theorem wrapInt32_of_isInt32 (x : Int) (h : isInt32 x) : wrapInt32 x = x := by
  unfold isInt32 at h
  unfold wrapInt32
  omega

/-- A wrapped number is an `int`. -/
theorem isInt32_wrapInt32 (x : Int) : isInt32 (wrapInt32 x) := by
  unfold isInt32 wrapInt32
  omega

/-- Wrapping after every subtraction is wrapping the final difference. -/
theorem wrapInt32_sub (x y : Int) : wrapInt32 (wrapInt32 x - y) = wrapInt32 (x - y) := by
  unfold wrapInt32
  omega

namespace Machine

/-- A mutation loop that returns normally has changed nothing but the quantities, and has
lowered the quantity of every product by the purchased quantity, on 32-bit integers. -/
theorem mutationPass_wraps (items : List CartItem) (ps ps' : Products)
    (hrange : ∀ r, isInt32 (ps r).quantity)
    (h : mutationPass items ps = (.ok (), ps')) (r : ProductRef) :
    ps' r = { ps r with
      quantity := wrapInt32 ((ps r).quantity - purchasedQuantity items r) } := by
  induction items generalizing ps with
  | nil =>
    simp only [mutationPass, Prod.mk.injEq, true_and] at h
    subst h
    simp [purchasedQuantity, wrapInt32_of_isInt32 _ (hrange r)]
  | cons item rest ih =>
    rw [mutationPass] at h
    unfold Product.reduceQuantity at h
    by_cases hq : item.quantity > (ps item.product).quantity
    · simp [hq] at h
    · simp only [hq, if_false] at h
      have hrange' : ∀ a, isInt32 ((Function.update ps item.product
          { ps item.product with
            quantity := wrapInt32 ((ps item.product).quantity - item.quantity) }) a).quantity := by
        intro a
        by_cases ha : a = item.product
        · subst ha
          simp only [Function.update_same]
          exact isInt32_wrapInt32 _
        · rw [Function.update_noteq ha]
          exact hrange a
      rw [ih _ hrange' h]
      by_cases hr : item.product = r
      · subst hr
        simp only [Function.update_same, purchasedQuantity, List.filter_cons, decide_True,
          if_true, List.map_cons, List.sum_cons, wrapInt32_sub]
        rw [sub_sub]
      · simp [purchasedQuantity, List.filter_cons, hr, Function.update_noteq (Ne.symm hr)]

end Machine

namespace Machine

/-- An error of the validation loop is the outcome of `checkout`, in the state it started
in. -/
theorem checkout_rejected (w : World) (e : RuntimeError) (hne : w.cart.items ≠ [])
    (h : validationPass w.products w.cart.items ⟨Double.ofInt 0, Double.ofInt 0, []⟩ =
      .error e) :
    checkout w = (.error e, w) := by
  simp [checkout, cart_isEmpty_eq_false w.cart hne, Cart.getItems, h]

/-- When the double comparison `balance < total` holds, `checkout` throws
InsufficientFunds in the state it started in. -/
theorem checkout_unpaid (w : World) (t : Totals) (hne : w.cart.items ≠ [])
    (h : validationPass w.products w.cart.items ⟨Double.ofInt 0, Double.ofInt 0, []⟩ = .ok t)
    (hb : Double.lt w.customer.balance (Double.add t.subtotal t.shipping) = true) :
    checkout w = (.error .insufficientFunds, w) := by
  simp [checkout, cart_isEmpty_eq_false w.cart hne, Cart.getItems, h, Customer.deduct, hb]

/-- Once the customer has been charged, `checkout` is determined by the mutation loop. -/
theorem checkout_paid (w : World) (t : Totals) (hne : w.cart.items ≠ [])
    (h : validationPass w.products w.cart.items ⟨Double.ofInt 0, Double.ofInt 0, []⟩ = .ok t)
    (hb : Double.lt w.customer.balance (Double.add t.subtotal t.shipping) = false) :
    checkout w =
      match mutationPass w.cart.items w.products with
      | (.error e, products) =>
        (.error e, { w with products := products,
                            customer := { w.customer with
                              balance := Double.sub w.customer.balance
                                (Double.add t.subtotal t.shipping) } })
      | (.ok _, products) =>
        (.ok { shipment :=
                if t.shippables.isEmpty then none
                else some (ShippingService.ship products t.shippables)
               receipt :=
                { lines := receiptLines products w.cart.items
                  subtotal := t.subtotal.print
                  shipping := t.shipping.print
                  amount := (Double.add t.subtotal t.shipping).print
                  remainingBalance :=
                    (Double.sub w.customer.balance (Double.add t.subtotal t.shipping)).print } },
          { w with products := products,
                   customer := { w.customer with
                     balance := Double.sub w.customer.balance
                       (Double.add t.subtotal t.shipping) } }) := by
  simp only [checkout, cart_isEmpty_eq_false w.cart hne, Cart.getItems, h, Customer.deduct, hb,
    if_false, Bool.false_eq_true, Customer.getBalance]

/-- Inversion of a successful checkout on machine numbers. -/
theorem checkout_success_inv (w : World) (out : Output) (h : (checkout w).1 = .ok out) :
    ∃ products,
      w.cart.items ≠ [] ∧
      validationPass w.products w.cart.items ⟨Double.ofInt 0, Double.ofInt 0, []⟩ =
        .ok ⟨subtotalOf w.products w.cart.items, shippingFeeOf w.products w.cart.items,
          shippableItems w.products w.cart.items⟩ ∧
      Double.lt w.customer.balance
        (Double.add (subtotalOf w.products w.cart.items)
          (shippingFeeOf w.products w.cart.items)) = false ∧
      mutationPass w.cart.items w.products = (.ok (), products) ∧
      (checkout w).2 =
        { w with products := products,
                 customer := { w.customer with
                   balance := Double.sub w.customer.balance
                     (Double.add (subtotalOf w.products w.cart.items)
                       (shippingFeeOf w.products w.cart.items)) } } ∧
      out =
        { shipment :=
            if (shippableItems w.products w.cart.items).isEmpty then none
            else some (ShippingService.ship products (shippableItems w.products w.cart.items))
          receipt :=
            { lines := receiptLines products w.cart.items
              subtotal := (subtotalOf w.products w.cart.items).print
              shipping := (shippingFeeOf w.products w.cart.items).print
              amount := (Double.add (subtotalOf w.products w.cart.items)
                (shippingFeeOf w.products w.cart.items)).print
              remainingBalance :=
                (Double.sub w.customer.balance
                  (Double.add (subtotalOf w.products w.cart.items)
                    (shippingFeeOf w.products w.cart.items))).print } } := by
  by_cases hne : w.cart.items = []
  · simp [checkout, Cart.isEmpty, hne] at h
  · cases hv : validationPass w.products w.cart.items ⟨Double.ofInt 0, Double.ofInt 0, []⟩ with
    | error e => rw [checkout_rejected w e hne hv] at h; simp at h
    | ok t =>
      have ht := validationPass_ok_totals _ _ _ hv
      subst ht
      cases hb : Double.lt w.customer.balance
          (Double.add (subtotalOf w.products w.cart.items)
            (shippingFeeOf w.products w.cart.items)) with
      | true => rw [checkout_unpaid w _ hne hv hb] at h; simp at h
      | false =>
        rw [checkout_paid w _ hne hv hb] at h ⊢
        rcases hm : mutationPass w.cart.items w.products with ⟨r, products⟩
        cases r with
        | error e => rw [hm] at h; simp at h
        | ok u =>
          rw [hm] at h
          simp only [Except.ok.injEq] at h
          exact ⟨products, hne, rfl, rfl, rfl, rfl, h.symm⟩

/-- The quantities of the products of `main` are 32-bit integers. -/
theorem isInt32_mainProducts (r : ProductRef) : isInt32 (mainProducts r).quantity := by
  simp only [mainProducts]
  split_ifs <;> decide

end Machine

namespace Machine

/-- Whatever its outcome, the mutation loop changes no product's name, price or class,
and leaves alone every product that no item points to. -/
theorem mutationPass_keeps (items : List CartItem) (ps : Products) (a : ProductRef) :
    ((mutationPass items ps).2 a).name = (ps a).name ∧
    ((mutationPass items ps).2 a).price = (ps a).price ∧
    ((mutationPass items ps).2 a).variant = (ps a).variant ∧
    ((∀ item ∈ items, item.product ≠ a) → (mutationPass items ps).2 a = ps a) := by
  induction items generalizing ps with
  | nil => simp [mutationPass]
  | cons item rest ih =>
    rw [mutationPass]
    unfold Product.reduceQuantity
    by_cases hq : item.quantity > (ps item.product).quantity
    · simp only [hq, if_true]
      by_cases ha : item.product = a
      · subst ha
        simp
      · simp [Function.update_noteq (Ne.symm ha)]
    · simp only [hq, if_false]
      obtain ⟨h1, h2, h3, h4⟩ := ih (Function.update ps item.product
        { ps item.product with
          quantity := wrapInt32 ((ps item.product).quantity - item.quantity) })
      rw [h1, h2, h3]
      by_cases ha : item.product = a
      · subst ha
        simp
      · refine ⟨?_, ?_, ?_, fun hall => ?_⟩
        · simp [Function.update_noteq (Ne.symm ha)]
        · simp [Function.update_noteq (Ne.symm ha)]
        · simp [Function.update_noteq (Ne.symm ha)]
        · rw [h4 fun i hi => hall i (List.mem_cons_of_mem _ hi)]
          simp [Function.update_noteq (Ne.symm ha)]

/-- The loop of `ship` appends one printed line per shippable item and adds their weights,
one after the other, to the running total. -/
theorem shipLoop_run (products : Products) (items : List CartItem) (lines : List ShipmentLine)
    (totalWeight : Double) :
    ShippingService.shipLoop products items lines totalWeight =
      (lines ++ (shippableItems products items).map fun item =>
          ShipmentLine.mk item.quantity (products item.product).name
            (lineWeight products item).print,
        (shippableItems products items).foldl
          (fun a item => Double.add a (lineWeight products item)) totalWeight) := by
  induction items generalizing lines totalWeight with
  | nil => simp [ShippingService.shipLoop, shippableItems]
  | cons item rest ih =>
    rw [ShippingService.shipLoop]
    cases hs : (products item.product).requiresShipping with
    | true =>
      simp only [if_true, ih]
      simp [shippableItems, List.filter_cons, hs, lineWeight, Product.getName]
    | false =>
      simp only [Bool.false_eq_true, if_false, ih]
      simp [shippableItems, List.filter_cons, hs]

/-- The notice that `ship` prints for the shippable entries of a cart, with the products
as the mutation loop left them. -/
theorem ship_shippables (ps ps2 : Products) (items : List CartItem)
    (hname : ∀ r, (ps2 r).name = (ps r).name) (hvar : ∀ r, (ps2 r).variant = (ps r).variant) :
    ShippingService.ship ps2 (shippableItems ps items) =
      { lines := (shippableItems ps items).map fun item =>
          ShipmentLine.mk item.quantity (ps item.product).name (lineWeight ps item).print
        totalWeightKg :=
          if Double.lt (Double.ofInt 0) (totalWeightOf ps items) then
            some (Double.div (totalWeightOf ps items) (Double.ofInt 1000)).print
          else none } := by
  have hf : ∀ l : List CartItem, shippableItems ps2 l = shippableItems ps l := by
    intro l
    simp [shippableItems, Product.requiresShipping, hvar]
  have hw : lineWeight ps2 = lineWeight ps := by
    funext item
    simp [lineWeight, Product.getWeight, hvar]
  have hidem : shippableItems ps (shippableItems ps items) = shippableItems ps items := by
    simp [shippableItems, List.filter_filter]
  simp only [ShippingService.ship, shipLoop_run, hf, hw, hidem, hname, List.nil_append,
    totalWeightOf]

/-- What a successful checkout prints, in the vocabulary of the specification on machine
numbers. -/
theorem checkout_success_output (w : World) (out : Output) (h : (checkout w).1 = .ok out) :
    out.shipment =
      (if (shippableItems w.products w.cart.items).isEmpty then none
       else some
        { lines := (shippableItems w.products w.cart.items).map fun item =>
            ShipmentLine.mk item.quantity (w.products item.product).name
              (lineWeight w.products item).print
          totalWeightKg :=
            if Double.lt (Double.ofInt 0) (totalWeightOf w.products w.cart.items) then
              some (Double.div (totalWeightOf w.products w.cart.items)
                (Double.ofInt 1000)).print
            else none }) ∧
    out.receipt =
      { lines := w.cart.items.map fun item =>
          ReceiptLine.mk item.quantity (w.products item.product).name
            (lineTotal w.products item).print
        subtotal := (subtotalOf w.products w.cart.items).print
        shipping := (shippingFeeOf w.products w.cart.items).print
        amount := (Double.add (subtotalOf w.products w.cart.items)
          (shippingFeeOf w.products w.cart.items)).print
        remainingBalance :=
          (Double.sub w.customer.balance
            (Double.add (subtotalOf w.products w.cart.items)
              (shippingFeeOf w.products w.cart.items))).print } := by
  obtain ⟨products, -, -, -, hm, -, hout⟩ := checkout_success_inv w out h
  have hfr : ∀ r, (products r).name = (w.products r).name ∧
      (products r).price = (w.products r).price ∧
      (products r).variant = (w.products r).variant := by
    intro r
    have := mutationPass_keeps w.cart.items w.products r
    rw [hm] at this
    exact ⟨this.1, this.2.1, this.2.2.1⟩
  rw [hout]
  refine ⟨?_, ?_⟩
  · simp only
    rw [ship_shippables w.products products _ (fun r => (hfr r).1) (fun r => (hfr r).2.2)]
  · simp [receiptLines, lineTotal, Product.getName, Product.getPrice, hfr]

end Machine

namespace Machine

/-! ## Settlement on machine numbers -/

set_option maxRecDepth 20000 in
/-- Counterexample to C1 as stated, in two runs of the program on machine numbers.  With
balance 1e16 and one pen at price 1 checkout succeeds and charges subtotal + shipping
= 1 + 0, yet the balance afterwards is 1e16 again, not 1e16 - 1: the double subtraction
rounds.  With the entry -1 on a stock of 2147483647 checkout succeeds and the stock
afterwards is -2147483648, not 2147483647 - (-1): the `int` subtraction overflows. -/
theorem checkout_settlement_counterexample :
    (checkout roundingWorld).1.isOk = true ∧
    roundingWorld.customer.balance.toRat? = some 10000000000000000 ∧
    (subtotalOf roundingWorld.products roundingWorld.cart.items).toRat? = some 1 ∧
    (shippingFeeOf roundingWorld.products roundingWorld.cart.items).toRat? = some 0 ∧
    (checkout roundingWorld).2.customer.balance.toRat? = some 10000000000000000 ∧
    (10000000000000000 : ℚ) ≠ 10000000000000000 - (1 + 0) ∧
    (checkout overflowWorld).1.isOk = true ∧
    (overflowWorld.products 0).quantity = 2147483647 ∧
    purchasedQuantity overflowWorld.cart.items 0 = -1 ∧
    ((checkout overflowWorld).2.products 0).quantity = -2147483648 ∧
    (-2147483648 : Int) ≠ 2147483647 - (-1) := by
  have h1 : roundingWorld.customer.balance = .fin false 5000000000000000 1 := by decide
  have h2 : subtotalOf roundingWorld.products roundingWorld.cart.items =
      .fin false 4503599627370496 (-52) := by decide
  have h3 : shippingFeeOf roundingWorld.products roundingWorld.cart.items =
      .fin false 0 0 := by decide
  have h4 : (checkout roundingWorld).2.customer.balance = .fin false 5000000000000000 1 := by
    decide
  refine ⟨by decide, ?_, ?_, ?_, ?_, by norm_num, by decide, by decide, by decide, by decide,
    by decide⟩
  · rw [h1]; simp [Double.toRat?, Double.signed]; norm_num
  · rw [h2]; simp [Double.toRat?, Double.signed]; norm_num
  · rw [h3]; simp [Double.toRat?, Double.signed]
  · rw [h4]; simp [Double.toRat?, Double.signed]; norm_num

/-- C1, amended: whenever checkout succeeds, the customer's balance afterwards is the
double difference balance - (subtotal + shipping), where the subtotal is the running
double sum, in cart order from 0.0, of the double products unit price x requested
quantity, the shipping is the running double sum of 10.0 per shippable entry, and every
operation is rounded to the nearest double; and the quantity on hand of every product
afterwards is its quantity before minus the purchased quantity (the sum of the requested
quantities of the cart entries that reference it) as a 32-bit `int`, which is exactly
that difference whenever the difference is in the range of `int`. -/
theorem checkout_success_settles_on_machine (w : World) (out : Output)
    (h : (checkout w).1 = .ok out) (hrange : ∀ r, isInt32 (w.products r).quantity) :
    (checkout w).2.customer.balance =
      Double.sub w.customer.balance
        (Double.add (subtotalOf w.products w.cart.items)
          (shippingFeeOf w.products w.cart.items)) ∧
    (∀ r : ProductRef, ((checkout w).2.products r).quantity =
      wrapInt32 ((w.products r).quantity - purchasedQuantity w.cart.items r)) ∧
    (∀ r : ProductRef, isInt32 ((w.products r).quantity - purchasedQuantity w.cart.items r) →
      ((checkout w).2.products r).quantity =
        (w.products r).quantity - purchasedQuantity w.cart.items r) := by
  obtain ⟨products, -, -, -, hm, hw, -⟩ := checkout_success_inv w out h
  have hq : ∀ r : ProductRef, ((checkout w).2.products r).quantity =
      wrapInt32 ((w.products r).quantity - purchasedQuantity w.cart.items r) := by
    intro r
    rw [hw]
    simp [mutationPass_wraps _ _ _ hrange hm r]
  refine ⟨by rw [hw], hq, fun r hr => ?_⟩
  rw [hq r, wrapInt32_of_isInt32 _ hr]

set_option maxRecDepth 20000 in
/-- Witness of the amended C1: the checkout of `main`, where no operation rounds or
overflows, leaves the balance 90 and the stocks 3, 2, 3 and 9. -/
theorem checkout_success_settles_on_machine_witness :
    (checkout mainCartWorld).1 = .ok mainOutput ∧
    (checkout mainCartWorld).2.customer.balance = Double.ofInt 90 ∧
    ((checkout mainCartWorld).2.products 0).quantity = 3 ∧
    ((checkout mainCartWorld).2.products 1).quantity = 2 ∧
    ((checkout mainCartWorld).2.products 2).quantity = 3 ∧
    ((checkout mainCartWorld).2.products 3).quantity = 9 :=
  have h := checkout_success_settles_on_machine mainCartWorld mainOutput (by decide)
    isInt32_mainProducts
  ⟨by decide, h.1.trans (by decide), (h.2.2 0 (by decide)).trans (by decide),
    (h.2.2 1 (by decide)).trans (by decide), (h.2.2 2 (by decide)).trans (by decide),
    (h.2.2 3 (by decide)).trans (by decide)⟩

set_option maxRecDepth 20000 in
/-- Counterexample to C2 as stated: five sweets at price 0.1 cost more than the balance
0.5 in exact terms, since the double nearest to 1/10 is slightly above 1/10, and the cart
passes validation; yet checkout does not fail with InsufficientFunds: the double product
0.1 * 5 is 0.5, the comparison 0.5 < 0.5 is false, and checkout succeeds, charges the
customer and lowers the stock. -/
theorem checkout_insufficient_funds_counterexample :
    tenthsWorld.cart.items ≠ [] ∧
    (∀ item ∈ tenthsWorld.cart.items, ItemValid tenthsWorld.products item) ∧
    (tenthsWorld.products 0).price.toRat? =
      some (3602879701896397 / 36028797018963968) ∧
    tenthsWorld.customer.balance.toRat? = some (1 / 2) ∧
    (1 / 2 : ℚ) < 3602879701896397 / 36028797018963968 * 5 + 0 ∧
    (checkout tenthsWorld).1.isOk = true ∧
    (checkout tenthsWorld).2.customer.balance = Double.ofInt 0 ∧
    ((checkout tenthsWorld).2.products 0).quantity = 0 := by
  have h1 : (tenthsWorld.products 0).price = .fin false 7205759403792794 (-56) := by decide
  have h2 : tenthsWorld.customer.balance = .fin false 4503599627370496 (-53) := by decide
  refine ⟨by decide, by decide, ?_, ?_, by norm_num, by decide, by decide, by decide⟩
  · rw [h1]; simp [Double.toRat?, Double.signed]; norm_num
  · rw [h2]; simp [Double.toRat?, Double.signed]; norm_num

/-- C2, amended: for a non-empty cart all of whose entries pass validation, if the total
that the program computes, the double sum subtotal + shipping of the running double sums,
exceeds the customer's balance in the double comparison `balance < total`, then checkout
fails with InsufficientFunds, and the customer's balance and every product's quantity on
hand are the same as before the call. -/
theorem checkout_insufficient_funds_on_machine (w : World) (hne : w.cart.items ≠ [])
    (hvalid : ∀ item ∈ w.cart.items, ItemValid w.products item)
    (hfunds : Double.lt w.customer.balance
      (Double.add (subtotalOf w.products w.cart.items)
        (shippingFeeOf w.products w.cart.items)) = true) :
    (checkout w).1 = .error .insufficientFunds ∧
    (checkout w).2.customer.balance = w.customer.balance ∧
    ∀ r : ProductRef, ((checkout w).2.products r).quantity = (w.products r).quantity := by
  rw [checkout_unpaid w _ hne (validationPass_totals _ _ hvalid) hfunds]
  exact ⟨rfl, rfl, fun _ => rfl⟩

set_option maxRecDepth 20000 in
/-- Witness of the amended C2: the cart of `main`, total 710, with a customer who has
700. -/
theorem checkout_insufficient_funds_on_machine_witness :
    (checkout shortBalanceWorld).1 = .error .insufficientFunds ∧
    (checkout shortBalanceWorld).2.customer.balance = shortBalanceWorld.customer.balance ∧
    ∀ r : ProductRef,
      ((checkout shortBalanceWorld).2.products r).quantity =
        (shortBalanceWorld.products r).quantity :=
  checkout_insufficient_funds_on_machine shortBalanceWorld (by decide) (by decide) (by decide)

end Machine

namespace Machine

/-! ## The guarded methods on machine numbers -/

set_option maxRecDepth 20000 in
/-- Counterexample to C9 as stated: for a customer with balance 1e16, `deduct(1)` returns
normally and leaves the balance at 1e16, which is not 1e16 - 1: the difference is not a
double and rounds back to 1e16. -/
theorem customer_deduct_counterexample :
    ((Customer.mk "Anton" (Double.ofInt 10000000000000000)).deduct (Double.ofInt 1)).1 =
      .ok () ∧
    (Double.ofInt 10000000000000000).toRat? = some 10000000000000000 ∧
    (Double.ofInt 1).toRat? = some 1 ∧
    ((Customer.mk "Anton" (Double.ofInt 10000000000000000)).deduct
      (Double.ofInt 1)).2.balance.toRat? = some 10000000000000000 ∧
    (10000000000000000 : ℚ) ≠ 10000000000000000 - 1 := by
  have h1 : Double.ofInt 10000000000000000 = .fin false 5000000000000000 1 := by decide
  have h2 : Double.ofInt 1 = .fin false 4503599627370496 (-52) := by decide
  have h3 : ((Customer.mk "Anton" (Double.ofInt 10000000000000000)).deduct
      (Double.ofInt 1)).2.balance = .fin false 5000000000000000 1 := by decide
  refine ⟨by decide, ?_, ?_, ?_, by norm_num⟩
  · rw [h1]; simp [Double.toRat?, Double.signed]; norm_num
  · rw [h2]; simp [Double.toRat?, Double.signed]; norm_num
  · rw [h3]; simp [Double.toRat?, Double.signed]; norm_num

/-- C9, amended: `Customer.deduct(amount)` fails with InsufficientFunds exactly when the
amount exceeds the balance in the double comparison `balance < amount`, and then the
balance is unchanged; otherwise it returns normally and the new balance is the double
difference balance - amount, the exact difference rounded to the nearest double. -/
theorem customer_deduct_on_machine (c : Customer) (amount : Double) :
    ((c.deduct amount).1 = .error .insufficientFunds ↔ Double.lt c.balance amount = true) ∧
    (Double.lt c.balance amount = true → (c.deduct amount).2.balance = c.balance) ∧
    (Double.lt c.balance amount = false →
      (c.deduct amount).1 = .ok () ∧
      (c.deduct amount).2.balance = Double.sub c.balance amount) := by
  unfold Customer.deduct
  cases h : Double.lt c.balance amount <;> simp

set_option maxRecDepth 20000 in
/-- Witness of the amended C9 on the customer of `main`: 801 is refused with the balance
left at 800; 710 is accepted and leaves 90. -/
theorem customer_deduct_on_machine_witness :
    (mainCartWorld.customer.deduct (Double.ofInt 801)).1 = .error .insufficientFunds ∧
    (mainCartWorld.customer.deduct (Double.ofInt 801)).2.balance = Double.ofInt 800 ∧
    (mainCartWorld.customer.deduct (Double.ofInt 710)).1 = .ok () ∧
    (mainCartWorld.customer.deduct (Double.ofInt 710)).2.balance = Double.ofInt 90 :=
  ⟨(customer_deduct_on_machine mainCartWorld.customer (Double.ofInt 801)).1.mpr (by decide),
    ((customer_deduct_on_machine mainCartWorld.customer (Double.ofInt 801)).2.1
      (by decide)).trans (by decide),
    ((customer_deduct_on_machine mainCartWorld.customer (Double.ofInt 710)).2.2
      (by decide)).1,
    ((customer_deduct_on_machine mainCartWorld.customer (Double.ofInt 710)).2.2
      (by decide)).2.trans (by decide)⟩

/-- Counterexample to C10 as stated: on a product with 2147483647 on hand,
`reduceQuantity(-1)` passes the guard and returns normally, and the quantity on hand
becomes -2147483648, which is not 2147483647 - (-1): the `int` subtraction overflows. -/
theorem product_reduceQuantity_counterexample :
    isInt32 2147483647 ∧ isInt32 (-1) ∧
    ((Product.mk "Leaflet" (Double.ofInt 0) 2147483647 .base).reduceQuantity (-1)).1 = .ok () ∧
    ((Product.mk "Leaflet" (Double.ofInt 0) 2147483647 .base).reduceQuantity (-1)).2.quantity =
      -2147483648 ∧
    (-2147483648 : Int) ≠ 2147483647 - (-1) := by
  decide

/-- C10, amended: for a product whose quantity on hand is an `int` and an `int` q,
`Product.reduceQuantity(q)` fails, with the error of its only `throw`, exactly when q
exceeds the quantity on hand, and then the quantity is unchanged; otherwise it returns
normally, name and price are unchanged, and the new quantity on hand is the old quantity
minus q as a 32-bit `int`: exactly old - q whenever old - q is at most 2147483647, which
is the case for every q that is not negative. -/
theorem product_reduceQuantity_on_machine (p : Product) (q : Int)
    (hp : isInt32 p.quantity) (hq : isInt32 q) :
    ((p.reduceQuantity q).1 = .error .insufficientStockOnReduce ↔ q > p.quantity) ∧
    (q > p.quantity → (p.reduceQuantity q).2.quantity = p.quantity) ∧
    (¬ q > p.quantity →
      (p.reduceQuantity q).1 = .ok () ∧
      (p.reduceQuantity q).2.name = p.name ∧
      (p.reduceQuantity q).2.price = p.price ∧
      (p.reduceQuantity q).2.quantity = wrapInt32 (p.quantity - q) ∧
      (p.quantity - q ≤ 2147483647 → (p.reduceQuantity q).2.quantity = p.quantity - q) ∧
      (0 ≤ q → (p.reduceQuantity q).2.quantity = p.quantity - q)) := by
  unfold Product.reduceQuantity
  by_cases h : q > p.quantity
  · simp [h]
  · have hge : q ≤ p.quantity := not_lt.mp h
    unfold isInt32 at hp hq
    have hw1 : p.quantity - q ≤ 2147483647 → wrapInt32 (p.quantity - q) = p.quantity - q := by
      intro hle
      apply wrapInt32_of_isInt32
      unfold isInt32
      omega
    have hw2 : 0 ≤ q → wrapInt32 (p.quantity - q) = p.quantity - q := by
      intro h0
      apply wrapInt32_of_isInt32
      unfold isInt32
      omega
    rw [if_neg h]
    exact ⟨⟨fun hx => by simp at hx, fun hgt => absurd hgt h⟩, fun hgt => absurd hgt h,
      fun _ => ⟨rfl, rfl, rfl, rfl, hw1, hw2⟩⟩

/-- Witness of the amended C10 on the TV of `main`: reducing by 5 with 4 on hand is
refused and leaves 4; reducing by 1 is accepted and leaves 3, with name and price as
before. -/
theorem product_reduceQuantity_on_machine_witness :
    ((mainProducts 2).reduceQuantity 5).1 = .error .insufficientStockOnReduce ∧
    ((mainProducts 2).reduceQuantity 5).2.quantity = 4 ∧
    ((mainProducts 2).reduceQuantity 1).1 = .ok () ∧
    ((mainProducts 2).reduceQuantity 1).2.quantity = 3 ∧
    ((mainProducts 2).reduceQuantity 1).2.name = "TV" :=
  have h5 := product_reduceQuantity_on_machine (mainProducts 2) 5 (by decide) (by decide)
  have h1 := product_reduceQuantity_on_machine (mainProducts 2) 1 (by decide) (by decide)
  ⟨h5.1.mpr (by decide), (h5.2.1 (by decide)).trans (by decide),
    (h1.2.2 (by decide)).1,
    ((h1.2.2 (by decide)).2.2.2.2.2 (by decide)).trans (by decide),
    (h1.2.2 (by decide)).2.1.trans (by decide)⟩

end Machine

namespace Machine

/-! ## What a successful checkout prints, on machine numbers -/

set_option maxRecDepth 20000 in
/-- Counterexample to C15 as stated: three free shippable products of unit weights 1e16, 1
and 1e16 with requested quantities 1, 1 and -1.  Checkout succeeds and the notice lists
the line weights 1e16, 1 and -1e16, whose sum 1 is strictly positive; yet no aggregate
weight is reported: the running double total is 0 + 1e16 = 1e16, then 1e16 + 1 = 1e16,
then 1e16 - 1e16 = 0. -/
theorem shipment_notice_counterexample :
    (checkout cancellingWeightsWorld).1.isOk = true ∧
    (checkout cancellingWeightsWorld).1.toOption.bind Output.shipment =
      some ⟨[⟨1, "Anvil", .num false 100000 16⟩, ⟨1, "Feather", .num false 100000 0⟩,
        ⟨-1, "Balloon", .num true 100000 16⟩], none⟩ ∧
    (lineWeight cancellingWeightsWorld.products ⟨0, 1⟩).toRat? = some 10000000000000000 ∧
    (lineWeight cancellingWeightsWorld.products ⟨1, 1⟩).toRat? = some 1 ∧
    (lineWeight cancellingWeightsWorld.products ⟨2, -1⟩).toRat? =
      some (-10000000000000000) ∧
    (0 : ℚ) < 10000000000000000 + 1 + -10000000000000000 ∧
    totalWeightOf cancellingWeightsWorld.products cancellingWeightsWorld.cart.items =
      Double.ofInt 0 := by
  have h1 : lineWeight cancellingWeightsWorld.products ⟨0, 1⟩ =
      .fin false 5000000000000000 1 := by decide
  have h2 : lineWeight cancellingWeightsWorld.products ⟨1, 1⟩ =
      .fin false 4503599627370496 (-52) := by decide
  have h3 : lineWeight cancellingWeightsWorld.products ⟨2, -1⟩ =
      .fin true 5000000000000000 1 := by decide
  refine ⟨by decide, by decide, ?_, ?_, ?_, by norm_num, by decide⟩
  · rw [h1]; simp [Double.toRat?, Double.signed]; norm_num
  · rw [h2]; simp [Double.toRat?, Double.signed]; norm_num
  · rw [h3]; simp [Double.toRat?, Double.signed]; norm_num

/-- C15, amended: shipment notice of a successful checkout.  A notice is emitted if and
only if at least one cart entry's product requires shipping; it lists exactly the
shippable entries, in cart order, each with its requested quantity, product name and line
weight, the double product unit weight x requested quantity, shown with six significant
digits; the aggregate weight is reported if and only if the running double sum of the
line weights (added in cart order to 0.0, every addition rounded) is strictly positive,
and the reported value is the double quotient of that sum by 1000, shown with six
significant digits. -/
theorem shipment_notice_on_machine (w : World) (out : Output) (h : (checkout w).1 = .ok out) :
    (out.shipment ≠ none ↔
      ∃ item ∈ w.cart.items, (w.products item.product).requiresShipping = true) ∧
    ∀ notice : ShipmentNotice, out.shipment = some notice →
      notice.lines =
        (w.cart.items.filter fun item => (w.products item.product).requiresShipping).map
          (fun item => ⟨item.quantity, (w.products item.product).name,
            (Double.mul (w.products item.product).getWeight
              (Double.ofInt item.quantity)).print⟩) ∧
      (notice.totalWeightKg ≠ none ↔
        Double.lt (Double.ofInt 0) (totalWeightOf w.products w.cart.items) = true) ∧
      ∀ kg : Printed, notice.totalWeightKg = some kg →
        kg = (Double.div (totalWeightOf w.products w.cart.items) (Double.ofInt 1000)).print := by
  have hs := (checkout_success_output w out h).1
  refine ⟨?_, fun notice hn => ?_⟩
  · rw [hs]
    cases hf : shippableItems w.products w.cart.items with
    | nil =>
      simp only [List.isEmpty_nil, if_true, ne_eq, not_true_eq_false, false_iff]
      rintro ⟨item, hmem, hship⟩
      have : item ∈ shippableItems w.products w.cart.items := by
        simp [shippableItems, List.mem_filter, hmem, hship]
      rw [hf] at this
      simp at this
    | cons a l =>
      simp only [List.isEmpty_cons, Bool.false_eq_true, if_false, ne_eq, reduceCtorEq,
        not_false_eq_true, true_iff]
      have : a ∈ shippableItems w.products w.cart.items := by rw [hf]; simp
      simp only [shippableItems, List.mem_filter] at this
      exact ⟨a, this.1, this.2⟩
  · rw [hs] at hn
    split at hn
    · simp at hn
    · simp only [Option.some.injEq] at hn
      subst hn
      refine ⟨rfl, ?_, fun kg hkg => ?_⟩
      · cases hlt : Double.lt (Double.ofInt 0) (totalWeightOf w.products w.cart.items) <;> simp
      · simp only at hkg
        split at hkg
        · simp only [Option.some.injEq] at hkg
          exact hkg.symm
        · simp at hkg

set_option maxRecDepth 20000 in
/-- Witness of the amended C15: the notice of the checkout of `main` has the single line
1 x TV of 10000 g and reports 10 kg. -/
theorem shipment_notice_on_machine_witness :
    (mainOutput.shipment ≠ none ↔
      ∃ item ∈ mainCartWorld.cart.items,
        (mainCartWorld.products item.product).requiresShipping = true) ∧
    mainOutput.shipment =
      some ⟨[⟨1, "TV", .num false 100000 4⟩], some (.num false 100000 1)⟩ ∧
    (Double.div (totalWeightOf mainCartWorld.products mainCartWorld.cart.items)
      (Double.ofInt 1000)).print = .num false 100000 1 :=
  have h := shipment_notice_on_machine mainCartWorld mainOutput (by decide)
  ⟨h.1, rfl, ((h.2 _ rfl).2.2 _ rfl).symm⟩

set_option maxRecDepth 20000 in
/-- Counterexample to C16 as stated: with balance 1e16 and one pen at price 1 checkout
succeeds and the receipt reports the grand total 1 and the remaining balance 1e16, which
is not the balance before, 1e16, minus the grand total: the double subtraction rounds. -/
theorem receipt_counterexample :
    (checkout roundingWorld).1.isOk = true ∧
    (checkout roundingWorld).1.toOption.map Output.receipt =
      some ⟨[⟨1, "Pen", .num false 100000 0⟩], .num false 100000 0, .num false 0 0,
        .num false 100000 0, .num false 100000 16⟩ ∧
    roundingWorld.customer.balance.toRat? = some 10000000000000000 ∧
    (Printed.num false 100000 0).toRat? = some 1 ∧
    (Printed.num false 100000 16).toRat? = some 10000000000000000 ∧
    (10000000000000000 : ℚ) ≠ 10000000000000000 - 1 := by
  have h1 : roundingWorld.customer.balance = .fin false 5000000000000000 1 := by decide
  refine ⟨by decide, by decide, ?_, ?_, ?_, by norm_num⟩
  · rw [h1]; simp [Double.toRat?, Double.signed]; norm_num
  · simp [Printed.toRat?, Double.signed]; norm_num
  · simp [Printed.toRat?, Double.signed]; norm_num

/-- C16, amended: receipt of a successful checkout.  It has exactly one line per cart
entry, in cart order, with the entry's requested quantity, product name and line total,
the double product unit price x requested quantity; the reported subtotal is the running
double sum of the line totals (added in cart order to 0.0, every addition rounded), the
reported shipping is the running double sum of 10.0 per shippable entry, the reported
grand total is the double sum subtotal + shipping, and the reported remaining balance is
the double difference of the customer's balance before checkout and the grand total;
every amount is shown with six significant digits. -/
theorem receipt_on_machine (w : World) (out : Output) (h : (checkout w).1 = .ok out) :
    out.receipt.lines =
      w.cart.items.map (fun item => ⟨item.quantity, (w.products item.product).name,
        (Double.mul (w.products item.product).price (Double.ofInt item.quantity)).print⟩) ∧
    out.receipt.lines.length = w.cart.items.length ∧
    out.receipt.subtotal = (subtotalOf w.products w.cart.items).print ∧
    out.receipt.shipping = (shippingFeeOf w.products w.cart.items).print ∧
    out.receipt.amount =
      (Double.add (subtotalOf w.products w.cart.items)
        (shippingFeeOf w.products w.cart.items)).print ∧
    out.receipt.remainingBalance =
      (Double.sub w.customer.balance
        (Double.add (subtotalOf w.products w.cart.items)
          (shippingFeeOf w.products w.cart.items))).print := by
  have hr := (checkout_success_output w out h).2
  rw [hr]
  exact ⟨rfl, by simp, rfl, rfl, rfl, rfl⟩

set_option maxRecDepth 20000 in
/-- Witness of the amended C16: the receipt of the checkout of `main` has four lines,
subtotal 700, shipping 10, amount 710 and remaining balance 90. -/
theorem receipt_on_machine_witness :
    mainOutput.receipt.lines.length = mainCartWorld.cart.items.length ∧
    (subtotalOf mainCartWorld.products mainCartWorld.cart.items).print =
      .num false 700000 2 ∧
    (shippingFeeOf mainCartWorld.products mainCartWorld.cart.items).print =
      .num false 100000 1 ∧
    (Double.sub mainCartWorld.customer.balance
      (Double.add (subtotalOf mainCartWorld.products mainCartWorld.cart.items)
        (shippingFeeOf mainCartWorld.products mainCartWorld.cart.items))).print =
      .num false 900000 1 :=
  have h := receipt_on_machine mainCartWorld mainOutput (by decide)
  ⟨h.2.1, h.2.2.1.symm, h.2.2.2.1.symm, h.2.2.2.2.2.symm⟩

end Machine

namespace Machine

/-- A running double sum of terms that are not negative, started at a double that is not
negative, is not negative. -/
theorem nonNeg_foldl_add {α : Type} (g : α → Double) (l : List α) (init : Double)
    (hinit : Double.NonNeg init) (hg : ∀ x ∈ l, Double.NonNeg (g x)) :
    Double.NonNeg (l.foldl (fun a x => Double.add a (g x)) init) := by
  induction l generalizing init with
  | nil => exact hinit
  | cons x l ih =>
    rw [List.foldl_cons]
    exact ih _ (Double.nonNeg_add _ _ hinit (hg x (List.mem_cons_self _ _)))
      (fun y hy => hg y (List.mem_cons_of_mem _ hy))

/-- The total of a cart with positive requested quantities and prices that are not
negative is not negative. -/
theorem nonNeg_total (products : Products) (items : List CartItem)
    (hpos : ∀ item ∈ items, 0 < item.quantity) (hint : ∀ item ∈ items, isInt32 item.quantity)
    (hprice : ∀ item ∈ items, Double.le (Double.ofInt 0) (products item.product).price = true) :
    Double.NonNeg (Double.add (subtotalOf products items) (shippingFeeOf products items)) := by
  have h0 : Double.NonNeg (Double.ofInt 0) := by decide
  have h10 : Double.NonNeg (Double.ofInt 10) := by decide
  apply Double.nonNeg_add
  · apply nonNeg_foldl_add _ _ _ h0
    intro item hmem
    exact Double.nonNeg_mul_ofInt _ _ ((Double.le_zero_iff_nonNeg _).mp (hprice item hmem))
      (hpos item hmem) (hint item hmem).2
  · exact nonNeg_foldl_add (fun _ => Double.ofInt 10) _ _ h0 (fun _ _ => h10)

/-- A mutation loop over requested quantities that are not negative overflows nowhere:
when it returns normally, it has lowered the quantity of every product by exactly the
purchased quantity. -/
theorem mutationPass_exact (items : List CartItem) (ps ps' : Products)
    (hrange : ∀ r, isInt32 (ps r).quantity) (hpos : ∀ item ∈ items, 0 ≤ item.quantity)
    (h : mutationPass items ps = (.ok (), ps')) (r : ProductRef) :
    (ps' r).quantity = (ps r).quantity - purchasedQuantity items r := by
  induction items generalizing ps with
  | nil =>
    simp only [mutationPass, Prod.mk.injEq, true_and] at h
    subst h
    simp [purchasedQuantity]
  | cons item rest ih =>
    rw [mutationPass] at h
    unfold Product.reduceQuantity at h
    by_cases hq : item.quantity > (ps item.product).quantity
    · simp [hq] at h
    · simp only [hq, if_false] at h
      have h0 := hpos item (List.mem_cons_self _ _)
      have hr0 := hrange item.product
      have hw : wrapInt32 ((ps item.product).quantity - item.quantity) =
          (ps item.product).quantity - item.quantity := by
        apply wrapInt32_of_isInt32
        unfold isInt32 at hr0 ⊢
        omega
      rw [hw] at h
      have hrange' : ∀ a, isInt32 ((Function.update ps item.product
          { ps item.product with
            quantity := (ps item.product).quantity - item.quantity }) a).quantity := by
        intro a
        by_cases ha : a = item.product
        · subst ha
          simp only [Function.update_same]
          unfold isInt32 at hr0 ⊢
          omega
        · rw [Function.update_noteq ha]
          exact hrange a
      rw [ih _ hrange' (fun i hi => hpos i (List.mem_cons_of_mem _ hi)) h]
      by_cases hr : item.product = r
      · subst hr
        simp only [Function.update_same, purchasedQuantity, List.filter_cons, decide_True,
          if_true, List.map_cons, List.sum_cons]
        omega
      · simp [purchasedQuantity, List.filter_cons, hr, Function.update_noteq (Ne.symm hr)]

/-! ## Monotonicity on machine numbers -/

set_option maxRecDepth 20000 in
/-- Counterexample to C19 as stated: a customer whose balance is NaN buys one pen at the
non-negative price 1.  Every requested quantity is positive and checkout succeeds, since
the comparison NaN < 1 is false; the balance afterwards is NaN - 1 = NaN, and the
comparison balance after <= balance before is false. -/
theorem checkout_monotone_counterexample :
    (∀ item ∈ nanBalanceWorld.cart.items, 0 < item.quantity) ∧
    (∀ item ∈ nanBalanceWorld.cart.items,
      Double.le (Double.ofInt 0) (nanBalanceWorld.products item.product).price = true) ∧
    (checkout nanBalanceWorld).1.isOk = true ∧
    (checkout nanBalanceWorld).2.customer.balance = .nan ∧
    Double.le (checkout nanBalanceWorld).2.customer.balance
      nanBalanceWorld.customer.balance = false := by
  decide

/-- C19, amended: monotonicity of a successful checkout.  For every cart whose entries all
have a positive requested quantity and whose products all have a non-negative unit price,
the total charged, the double sum subtotal + shipping, is at least 0; so after a
successful checkout of a customer whose balance is a finite number (neither NaN nor an
infinity) the customer's balance is at most the balance before, in the double comparison,
and every product's quantity on hand is at most its quantity before, strictly smaller for
every product that a cart entry references. -/
theorem checkout_monotone_on_machine (w : World) (out : Output) (h : (checkout w).1 = .ok out)
    (hpos : ∀ item ∈ w.cart.items, 0 < item.quantity)
    (hint : ∀ item ∈ w.cart.items, isInt32 item.quantity)
    (hprice : ∀ item ∈ w.cart.items,
      Double.le (Double.ofInt 0) (w.products item.product).price = true)
    (hrange : ∀ r, isInt32 (w.products r).quantity)
    (hvalid : w.customer.balance.Valid) (hfinite : w.customer.balance.IsFinite) :
    Double.le (Double.ofInt 0)
      (Double.add (subtotalOf w.products w.cart.items)
        (shippingFeeOf w.products w.cart.items)) = true ∧
    Double.le (checkout w).2.customer.balance w.customer.balance = true ∧
    (∀ r : ProductRef, ((checkout w).2.products r).quantity ≤ (w.products r).quantity) ∧
    ∀ item ∈ w.cart.items,
      ((checkout w).2.products item.product).quantity < (w.products item.product).quantity := by
  have htotal := nonNeg_total w.products w.cart.items hpos hint hprice
  obtain ⟨products, -, -, hlt, hm, hw, -⟩ := checkout_success_inv w out h
  have hq : ∀ r : ProductRef, ((checkout w).2.products r).quantity =
      (w.products r).quantity - purchasedQuantity w.cart.items r := by
    intro r
    rw [hw]
    exact mutationPass_exact _ _ _ hrange (fun i hi => le_of_lt (hpos i hi)) hm r
  refine ⟨(Double.le_zero_iff_nonNeg _).mpr htotal, ?_, fun r => ?_, fun item hmem => ?_⟩
  · rw [hw]
    exact Double.sub_le_self_of_nonNeg _ _ hvalid hfinite htotal hlt
  · have := purchasedQuantity_nonneg w.cart.items r hpos
    rw [hq r]
    omega
  · have := purchasedQuantity_pos w.cart.items item hmem hpos
    rw [hq item.product]
    omega

set_option maxRecDepth 20000 in
/-- Witness of the amended C19: the checkout of `main` charges 710, which is at least 0,
lowers the balance from 800 to 90 and lowers the stock of every product in the cart. -/
theorem checkout_monotone_on_machine_witness :
    Double.le (Double.ofInt 0)
      (Double.add (subtotalOf mainCartWorld.products mainCartWorld.cart.items)
        (shippingFeeOf mainCartWorld.products mainCartWorld.cart.items)) = true ∧
    Double.le (checkout mainCartWorld).2.customer.balance mainCartWorld.customer.balance =
      true ∧
    (∀ r : ProductRef,
      ((checkout mainCartWorld).2.products r).quantity ≤ (mainCartWorld.products r).quantity) ∧
    ∀ item ∈ mainCartWorld.cart.items,
      ((checkout mainCartWorld).2.products item.product).quantity <
        (mainCartWorld.products item.product).quantity :=
  checkout_monotone_on_machine mainCartWorld mainOutput (by decide) (by decide) (by decide)
    (by decide) isInt32_mainProducts (by decide) (by decide)

end Machine

end Fawry
